import Mathlib

/-!
# Verification of the 2048 rules engine (`src/game_2048.py`)

Shallow embedding of the board-state transition core of the game:
the slide/merge engine (`Game2048._move_left`), the direction
generalization via row reversal and transposition (`Game2048.move`),
the spawn engine (`Game2048._spawn_tile`), win/loss detection
(`Game2048._can_move`), and the score ledger
(`Game2048._apply_score_gain`, `load_score_state`, `save_score_state`).

Boards are lists of lists of naturals (Python lists of non-negative
ints).  Randomness (`random.choice`, `random.random`) is modelled by an
explicit oracle (`SpawnRand`): an index choosing among the empty cells
and a flag for the 10% chance of a 4-tile.  The persistence layer's
file and JSON handling is abstracted into a `StoreState`; the in-memory
effect of a `save_score_state` call is recorded as a returned value.
-/

/-- `GRID_SIZE` from the source. -/
def GRID_SIZE : Nat := 4

/-- `TileMove` dataclass: one tile's displacement.  The Python field
`end` is called `stop` here (`end` is a Lean keyword). -/
structure TileMove where
  start : Nat × Nat
  stop : Nat × Nat
  value : Nat
  merged : Bool
deriving DecidableEq, Repr

/-- `MoveResult` dataclass. -/
structure MoveResult where
  board : List (List Nat)
  score_gain : Nat
  moved : Bool
  moves : List TileMove
  spawn : Option (Nat × Nat × Nat) := none
deriving DecidableEq, Repr

/-- The helper `transpose` uses `zip(*board)`, which truncates every
column to the length of the shortest row; `min_row_len` is that
length (`0` for an empty board, matching `zip()`). -/
def min_row_len : List (List Nat) → Nat
  | [] => 0
  | r0 :: rest => (rest.map List.length).foldl Nat.min r0.length

/-- `transpose(board) = [list(row) for row in zip(*board)]`. -/
def transpose (board : List (List Nat)) : List (List Nat) :=
  (List.range (min_row_len board)).map (fun c => board.map (fun row => row.getD c 0))

/-- Reading `board[r][c]` (always in range in the source; `getD`
supplies a default that is never used on well-formed boards). -/
def cell (board : List (List Nat)) (r c : Nat) : Nat :=
  (board.getD r []).getD c 0

/-- A well-formed board: the 4×4 grids the game works with. -/
def Wf (board : List (List Nat)) : Prop :=
  board.length = GRID_SIZE ∧ ∀ row ∈ board, row.length = GRID_SIZE

instance : DecidablePred Wf := fun board => by
  unfold Wf; infer_instance

/-- `non_zero = [(value, r, c) for c, value in enumerate(row) if value != 0]`
from `_move_left`. -/
def nonZeroEntries (r : Nat) (row : List Nat) : List (Nat × Nat × Nat) :=
  (row.enum.filter (fun p => p.2 != 0)).map (fun p => (p.2, r, p.1))

/-- The `while idx < len(non_zero)` loop of `_move_left`: consumes the
non-zero entries `(value, sourceCell)` left to right with a write
cursor `target`, merging an entry with the immediately following one
when the values are equal.  `endAt target` is the destination cell
written into the moves (`(r, dest_col)` in the source); returns the
compacted values, the score gain, and the recorded `TileMove`s. -/
def slide_scan (endAt : Nat → Nat × Nat) :
    List (Nat × Nat × Nat) → Nat → List Nat × Nat × List TileMove
  | [], _ => ([], 0, [])
  | [(v, sr, sc)], t =>
      ([v], 0, [⟨(sr, sc), endAt t, v, false⟩])
  | (v, sr, sc) :: (v2, sr2, sc2) :: rest, t =>
      if v2 = v then
        let res := slide_scan endAt rest (t + 1)
        (v * 2 :: res.1, res.2.1 + v * 2,
          ⟨(sr, sc), endAt t, v, true⟩ :: ⟨(sr2, sc2), endAt t, v2, true⟩ :: res.2.2)
      else
        let res := slide_scan endAt ((v2, sr2, sc2) :: rest) (t + 1)
        (v :: res.1, res.2.1, ⟨(sr, sc), endAt t, v, false⟩ :: res.2.2)

/-- Per-row data produced by `_move_left`: the new row (`new_row`),
the row's score gain contribution and its `TileMove`s. -/
structure RowResult where
  newRow : List Nat
  gain : Nat
  moves : List TileMove
deriving DecidableEq, Repr

/-- One iteration of the `for r, row in enumerate(board)` loop of
`_move_left`: `new_row` is the preallocated `[0] * GRID_SIZE` array
with the compacted values written at columns `0, 1, …`. -/
def move_left_row (r : Nat) (row : List Nat) : RowResult :=
  let res := slide_scan (fun t => (r, t)) (nonZeroEntries r row) 0
  ⟨res.1 ++ List.replicate (GRID_SIZE - res.1.length) 0, res.2.1, res.2.2⟩

/-- `Game2048._move_left`: the board `moved` iff some `new_row != row`. -/
def move_left (board : List (List Nat)) : MoveResult :=
  let rrs := board.enum.map (fun p => move_left_row p.1 p.2)
  { board := rrs.map RowResult.newRow
    score_gain := (rrs.map RowResult.gain).sum
    moved := ((rrs.map RowResult.newRow).zip board).any (fun q => q.1 != q.2)
    moves := (rrs.map RowResult.moves).flatten }

/-- `Game2048._mirror_horizontal`. -/
def mirror_horizontal (m : TileMove) : TileMove :=
  ⟨(m.start.1, GRID_SIZE - 1 - m.start.2), (m.stop.1, GRID_SIZE - 1 - m.stop.2),
    m.value, m.merged⟩

/-- `Game2048._transpose_move`. -/
def transpose_move (m : TileMove) : TileMove :=
  ⟨(m.start.2, m.start.1), (m.stop.2, m.stop.1), m.value, m.merged⟩

/-- The direction dispatch inside `Game2048.move` (lines 172–191): the
transform-composed `MoveResult` for a direction.  The trailing `else`
is the `DOWN` branch, exactly as in the source. -/
def direction_result (board : List (List Nat)) (direction : String) : MoveResult :=
  if direction = "LEFT" then move_left board
  else if direction = "RIGHT" then
    let flipped := board.map List.reverse
    let result := move_left flipped
    { result with board := result.board.map List.reverse
                  moves := result.moves.map mirror_horizontal }
  else if direction = "UP" then
    let result := move_left (transpose board)
    { result with board := transpose result.board
                  moves := result.moves.map transpose_move }
  else
    let flipped := (transpose board).map List.reverse
    let result := move_left flipped
    let unflipped := result.board.map List.reverse
    { result with board := transpose unflipped
                  moves := (result.moves.map mirror_horizontal).map transpose_move }

/-- The persisted score store.  The source keeps it in a JSON file;
the file and JSON layers are abstracted: `missing` (no file),
`unreadable` (`OSError`), `malformed` (`JSONDecodeError` / `ValueError`)
are the three recovered failure modes of `load_score_state`, and
`content` is a well-formed store holding the two integers. -/
inductive StoreState where
  | missing
  | unreadable
  | malformed
  | content (best_score total_score : Int)
deriving DecidableEq, Repr

/-- `load_score_state`: any failure mode yields the zero ledger. -/
def load_score_state : StoreState → Int × Int
  | .missing => (0, 0)
  | .unreadable => (0, 0)
  | .malformed => (0, 0)
  | .content b t => (b, t)

/-- `save_score_state`: writes the two integers to the store. -/
def save_score_state (best_score total_score : Int) : StoreState :=
  .content best_score total_score

/-- `Game2048._apply_score_gain`: returns the updated
`(best_score, total_score)` and, as a value, the `save_score_state`
call it performs (`none` when `gain <= 0` short-circuits). -/
def apply_score_gain (best_score total_score score gain : Int) :
    Int × Int × Option StoreState :=
  if gain ≤ 0 then (best_score, total_score, none)
  else
    let total := total_score + gain
    let best := if score > best_score then score else best_score
    (best, total, some (save_score_state best total))

/-- The mutable state of a `Game2048` instance. -/
structure GameState where
  best_score : Int
  total_score : Int
  score : Int
  board : List (List Nat)
  game_over : Bool
  won : Bool
  last_spawn : Option (Nat × Nat × Nat)
deriving DecidableEq, Repr

/-- Oracle for the two randomness draws of `_spawn_tile`:
`pick` selects among the empty cells (`random.choice`), `four` is
`random.random() < 0.1`. -/
structure SpawnRand where
  pick : Nat
  four : Bool
deriving DecidableEq, Repr

/-- `empty_cells = [(r, c) for r in range(GRID_SIZE) for c in range(GRID_SIZE)
if self.board[r][c] == 0]`. -/
def empty_cells (board : List (List Nat)) : List (Nat × Nat) :=
  (((List.range GRID_SIZE).map
      (fun r => (List.range GRID_SIZE).map (fun c => (r, c)))).flatten).filter
    (fun p => cell board p.1 p.2 == 0)

/-- `self.board[r][c] = value`. -/
def set_cell (board : List (List Nat)) (r c v : Nat) : List (List Nat) :=
  board.set r ((board.getD r []).set c v)

/-- `Game2048._spawn_tile`, with the randomness supplied by the oracle:
`random.choice(empty_cells)` is the element at index `pick % length`. -/
def spawn_tile (rand : SpawnRand) (st : GameState) :
    Option (Nat × Nat × Nat) × GameState :=
  let ec := empty_cells st.board
  if ec.isEmpty then (none, st)
  else
    let rc := ec.getD (rand.pick % ec.length) (0, 0)
    let value := if rand.four then 4 else 2
    let sp := (rc.1, rc.2, value)
    (some sp, { st with board := set_cell st.board rc.1 rc.2 value
                        last_spawn := some sp })

/-- `Game2048._can_move`: some empty cell, or some horizontally or
vertically adjacent equal pair. -/
def can_move (board : List (List Nat)) : Bool :=
  board.any (fun row => row.contains 0) ||
  ((List.range GRID_SIZE).any (fun r => (List.range (GRID_SIZE - 1)).any (fun c =>
      cell board r c == cell board r (c + 1)))) ||
  ((List.range GRID_SIZE).any (fun c => (List.range (GRID_SIZE - 1)).any (fun r =>
      cell board r c == cell board (r + 1) c)))

/-- The accepted-move tail of `Game2048.move` (lines 196–206): replace
the board, add the gain to the session score, record it in the ledger,
latch the win flag on a tile ≥ 2048, spawn, and recompute game-over. -/
def move_accept (rand : SpawnRand) (st : GameState) (result : MoveResult) :
    Option MoveResult × GameState :=
  let st1 := { st with board := result.board
                       score := st.score + (result.score_gain : Int) }
  let applied := apply_score_gain st1.best_score st1.total_score st1.score
    (result.score_gain : Int)
  let st2 := { st1 with best_score := applied.1, total_score := applied.2.1 }
  let st3 := if st2.board.any (fun row => row.any (fun v => decide (2048 ≤ v))) then
      { st2 with won := true }
    else st2
  let spawned := spawn_tile rand st3
  let st4 := { spawned.2 with game_over := !(can_move spawned.2.board) }
  (some { result with spawn := spawned.1 }, st4)

/-- `Game2048.move`: the full transition for one direction command.
Returns the `MoveResult` handed to the renderer (`none` for a rejected
command) and the successor state. -/
def move (rand : SpawnRand) (st : GameState) (direction : String) :
    Option MoveResult × GameState :=
  if direction ∈ ["LEFT", "RIGHT", "UP", "DOWN"] then
    let result := direction_result st.board direction
    if result.moved then move_accept rand st result
    else (none, st)
  else (none, st)

/-- Sum of all cell values of a board. -/
def board_sum (board : List (List Nat)) : Nat :=
  (board.map List.sum).sum

/-- The game-over condition as the specification words it: the grid
has no empty cell and no two horizontally- or vertically-adjacent
cells hold equal values. -/
def full_and_stuck (board : List (List Nat)) : Prop :=
  (∀ r < GRID_SIZE, ∀ c < GRID_SIZE, cell board r c ≠ 0) ∧
  (∀ r < GRID_SIZE, ∀ c < GRID_SIZE - 1, cell board r c ≠ cell board r (c + 1)) ∧
  (∀ c < GRID_SIZE, ∀ r < GRID_SIZE - 1, cell board r c ≠ cell board (r + 1) c)

instance : DecidablePred full_and_stuck := fun board => by
  unfold full_and_stuck; infer_instance

/-- Runs a sequence of direction commands (each with its spawn
randomness) through `move`, accumulating the final state, the total
score gain and the total value of all spawned tiles. -/
def run_moves : GameState → List (String × SpawnRand) → GameState × Nat × Nat
  | st, [] => (st, 0, 0)
  | st, (d, rn) :: rest =>
    let step := move rn st d
    let g := match step.1 with
      | some res => res.score_gain
      | none => 0
    let sp := match step.1 with
      | some res => match res.spawn with
        | some s => s.2.2
        | none => 0
      | none => 0
    let next := run_moves step.2 rest
    (next.1, g + next.2.1, sp + next.2.2)

/-!
## Specification-side brute-force directional slides

The spec claims the transform-composed `RIGHT`/`UP`/`DOWN` moves agree
with independently constructed directional slides (spec §4.1 and §8).
The following definitions build those outcomes directly — reading rows
right-to-left or columns top-to-bottom / bottom-to-top by coordinates
and writing the results back by coordinates — without ever reversing
or transposing the grid.
-/

/-- Column `c` of the board, top to bottom, read cell by cell. -/
def column (board : List (List Nat)) (c : Nat) : List Nat :=
  (List.range GRID_SIZE).map (fun r => cell board r c)

/-- Non-zero entries `(value, r, c)` of column `c`, top to bottom. -/
def spec_col_entries (c : Nat) (col : List Nat) : List (Nat × Nat × Nat) :=
  (col.enum.filter (fun p => p.2 != 0)).map (fun p => (p.2, p.1, c))

/-- Brute-force slide-right of one row: scan the non-zero entries
right to left, writing at columns `GRID_SIZE-1, GRID_SIZE-2, …`. -/
def spec_slide_right_row (r : Nat) (row : List Nat) : RowResult :=
  let res := slide_scan (fun t => (r, GRID_SIZE - 1 - t))
    ((nonZeroEntries r row).reverse) 0
  ⟨List.replicate (GRID_SIZE - res.1.length) 0 ++ res.1.reverse, res.2.1, res.2.2⟩

/-- Brute-force slide-right of a board, row by row. -/
def spec_slide_right (board : List (List Nat)) : MoveResult :=
  let rrs := board.enum.map (fun p => spec_slide_right_row p.1 p.2)
  { board := rrs.map RowResult.newRow
    score_gain := (rrs.map RowResult.gain).sum
    moved := ((rrs.map RowResult.newRow).zip board).any (fun q => q.1 != q.2)
    moves := (rrs.map RowResult.moves).flatten }

/-- Brute-force slide-up of one column: scan the non-zero entries top
to bottom, writing at rows `0, 1, …`; `newRow` is the new column. -/
def spec_slide_up_col (c : Nat) (col : List Nat) : RowResult :=
  let res := slide_scan (fun t => (t, c)) (spec_col_entries c col) 0
  ⟨res.1 ++ List.replicate (GRID_SIZE - res.1.length) 0, res.2.1, res.2.2⟩

/-- Brute-force slide-up of a board, column by column; the resulting
grid is assembled cell by cell from the new columns. -/
def spec_slide_up (board : List (List Nat)) : MoveResult :=
  let cols := (List.range GRID_SIZE).map (fun c => spec_slide_up_col c (column board c))
  { board := (List.range GRID_SIZE).map (fun r =>
      (List.range GRID_SIZE).map (fun c => (cols.getD c ⟨[], 0, []⟩).newRow.getD r 0))
    score_gain := (cols.map RowResult.gain).sum
    moved := ((cols.map RowResult.newRow).zip
      ((List.range GRID_SIZE).map (fun c => column board c))).any (fun q => q.1 != q.2)
    moves := (cols.map RowResult.moves).flatten }

/-- Brute-force slide-down of one column: scan the non-zero entries
bottom to top, writing at rows `GRID_SIZE-1, GRID_SIZE-2, …`;
`newRow` is the new column, top to bottom. -/
def spec_slide_down_col (c : Nat) (col : List Nat) : RowResult :=
  let res := slide_scan (fun t => (GRID_SIZE - 1 - t, c))
    ((spec_col_entries c col).reverse) 0
  ⟨List.replicate (GRID_SIZE - res.1.length) 0 ++ res.1.reverse, res.2.1, res.2.2⟩

/-- Brute-force slide-down of a board, column by column. -/
def spec_slide_down (board : List (List Nat)) : MoveResult :=
  let cols := (List.range GRID_SIZE).map (fun c => spec_slide_down_col c (column board c))
  { board := (List.range GRID_SIZE).map (fun r =>
      (List.range GRID_SIZE).map (fun c => (cols.getD c ⟨[], 0, []⟩).newRow.getD r 0))
    score_gain := (cols.map RowResult.gain).sum
    moved := ((cols.map RowResult.newRow).zip
      ((List.range GRID_SIZE).map (fun c => column board c))).any (fun q => q.1 != q.2)
    moves := (cols.map RowResult.moves).flatten }

/-- The move transform applied to each `TileMove` coordinate pair. -/
def map_move (φ : Nat × Nat → Nat × Nat) (m : TileMove) : TileMove :=
  ⟨φ m.start, φ m.stop, m.value, m.merged⟩

/-!
## Basic lemmas about the slide scan and board shape
-/

theorem slide_scan_length_le (endAt : Nat → Nat × Nat) :
    ∀ (l : List (Nat × Nat × Nat)) (t : Nat), (slide_scan endAt l t).1.length ≤ l.length
  | [], _ => Nat.le_refl _
  | [(v, sr, sc)], _ => Nat.le_refl _
  | (v, sr, sc) :: (v2, sr2, sc2) :: rest, t => by
    by_cases h : v2 = v
    · have ih := slide_scan_length_le endAt rest (t + 1)
      simp only [slide_scan, if_pos h, List.length_cons]
      omega
    · have ih := slide_scan_length_le endAt ((v2, sr2, sc2) :: rest) (t + 1)
      simp only [slide_scan, if_neg h, List.length_cons]
      simp only [List.length_cons] at ih
      omega

theorem nonZeroEntries_length_le (r : Nat) (row : List Nat) :
    (nonZeroEntries r row).length ≤ row.length := by
  unfold nonZeroEntries
  rw [List.length_map]
  calc (row.enum.filter (fun p => p.2 != 0)).length
      ≤ row.enum.length := List.length_filter_le _ _
    _ = row.length := List.enum_length

theorem move_left_row_length (r : Nat) (row : List Nat) (h : row.length = GRID_SIZE) :
    (move_left_row r row).newRow.length = GRID_SIZE := by
  have h1 := slide_scan_length_le (fun t => (r, t)) (nonZeroEntries r row) 0
  have h2 := nonZeroEntries_length_le r row
  unfold move_left_row
  simp only [List.length_append, List.length_replicate]
  omega

theorem move_left_board_eq (board : List (List Nat)) :
    (move_left board).board = board.enum.map (fun p => (move_left_row p.1 p.2).newRow) := by
  simp [move_left, List.map_map]

theorem move_left_wf (board : List (List Nat)) (h : Wf board) :
    Wf (move_left board).board := by
  obtain ⟨hlen, hrows⟩ := h
  rw [move_left_board_eq]
  constructor
  · rw [List.length_map, List.enum_length, hlen]
  · intro row hrow
    rw [List.mem_map] at hrow
    obtain ⟨p, hp, hrow⟩ := hrow
    have hmem : p.2 ∈ board := by
      rw [List.enum_eq_enumFrom] at hp
      exact List.snd_mem_of_mem_enumFrom hp
    rw [← hrow]
    exact move_left_row_length p.1 p.2 (hrows _ hmem)

theorem zip_bne_any_eq_false :
    ∀ (xs ys : List (List Nat)), xs.length = ys.length →
      (((xs.zip ys).any fun q => q.1 != q.2) = false ↔ xs = ys)
  | [], [], _ => by simp
  | [], y :: ys, h => by simp at h
  | x :: xs, [], h => by simp at h
  | x :: xs, y :: ys, h => by
    have ih := zip_bne_any_eq_false xs ys (by simpa using h)
    simp only [List.zip_cons_cons, List.any_cons, Bool.or_eq_false_iff, bne_eq_false_iff_eq,
      List.cons.injEq]
    constructor
    · rintro ⟨h1, h2⟩
      exact ⟨h1, ih.mp h2⟩
    · rintro ⟨h1, h2⟩
      exact ⟨h1, ih.mpr h2⟩

theorem move_left_moved_iff (board : List (List Nat)) :
    (move_left board).moved = false ↔ (move_left board).board = board := by
  have hlen : (move_left board).board.length = board.length := by
    rw [move_left_board_eq, List.length_map, List.enum_length]
  have hmoved : (move_left board).moved =
      (((move_left board).board.zip board).any fun q => q.1 != q.2) := by
    simp [move_left, List.map_map]
  rw [hmoved]
  exact zip_bne_any_eq_false _ _ hlen

theorem list_len4 {α : Type} (l : List α) (h : l.length = 4) :
    ∃ a b c d, l = [a, b, c, d] := by
  match l with
  | [] => simp at h
  | [a] => simp at h
  | [a, b] => simp at h
  | [a, b, c] => simp at h
  | [a, b, c, d] => exact ⟨a, b, c, d, rfl⟩
  | a :: b :: c :: d :: e :: rest => simp at h

theorem wf_board_eq {board : List (List Nat)} (h : Wf board) :
    ∃ a00 a01 a02 a03 a10 a11 a12 a13 a20 a21 a22 a23 a30 a31 a32 a33,
      board = [[a00, a01, a02, a03], [a10, a11, a12, a13],
               [a20, a21, a22, a23], [a30, a31, a32, a33]] := by
  obtain ⟨hlen, hrows⟩ := h
  obtain ⟨r0, r1, r2, r3, hb⟩ := list_len4 board hlen
  subst hb
  obtain ⟨a00, a01, a02, a03, h0⟩ := list_len4 r0 (hrows r0 (by simp))
  obtain ⟨a10, a11, a12, a13, h1⟩ := list_len4 r1 (hrows r1 (by simp))
  obtain ⟨a20, a21, a22, a23, h2⟩ := list_len4 r2 (hrows r2 (by simp))
  obtain ⟨a30, a31, a32, a33, h3⟩ := list_len4 r3 (hrows r3 (by simp))
  subst h0 h1 h2 h3
  exact ⟨_, _, _, _, _, _, _, _, _, _, _, _, _, _, _, _, rfl⟩

theorem direction_result_left (board : List (List Nat)) :
    direction_result board "LEFT" = move_left board := by
  unfold direction_result
  rw [if_pos rfl]

theorem direction_result_right (board : List (List Nat)) :
    direction_result board "RIGHT" =
      { move_left (board.map List.reverse) with
        board := (move_left (board.map List.reverse)).board.map List.reverse
        moves := (move_left (board.map List.reverse)).moves.map mirror_horizontal } := by
  unfold direction_result
  rw [if_neg (by decide), if_pos rfl]

theorem direction_result_up (board : List (List Nat)) :
    direction_result board "UP" =
      { move_left (transpose board) with
        board := transpose (move_left (transpose board)).board
        moves := (move_left (transpose board)).moves.map transpose_move } := by
  unfold direction_result
  rw [if_neg (by decide), if_neg (by decide), if_pos rfl]

theorem direction_result_down (board : List (List Nat)) :
    direction_result board "DOWN" =
      { move_left ((transpose board).map List.reverse) with
        board := transpose
          ((move_left ((transpose board).map List.reverse)).board.map List.reverse)
        moves := ((move_left ((transpose board).map List.reverse)).moves.map
          mirror_horizontal).map transpose_move } := by
  unfold direction_result
  rw [if_neg (by decide), if_neg (by decide), if_neg (by decide)]

theorem direction_result_right_moved (board : List (List Nat)) :
    (direction_result board "RIGHT").moved = (move_left (board.map List.reverse)).moved := by
  rw [direction_result_right]

theorem direction_result_up_moved (board : List (List Nat)) :
    (direction_result board "UP").moved = (move_left (transpose board)).moved := by
  rw [direction_result_up]

theorem direction_result_down_moved (board : List (List Nat)) :
    (direction_result board "DOWN").moved =
      (move_left ((transpose board).map List.reverse)).moved := by
  rw [direction_result_down]

theorem transpose_transpose {board : List (List Nat)} (h : Wf board) :
    transpose (transpose board) = board := by
  obtain ⟨a00, a01, a02, a03, a10, a11, a12, a13, a20, a21, a22, a23,
    a30, a31, a32, a33, hb⟩ := wf_board_eq h
  subst hb
  rfl

theorem wf_transpose {board : List (List Nat)} (h : Wf board) :
    Wf (transpose board) := by
  obtain ⟨a00, a01, a02, a03, a10, a11, a12, a13, a20, a21, a22, a23,
    a30, a31, a32, a33, hb⟩ := wf_board_eq h
  subst hb
  constructor
  · rfl
  · intro row hrow
    simp [transpose, min_row_len, List.range_succ] at hrow
    rcases hrow with h1 | h1 | h1 | h1 <;> subst h1 <;> rfl

theorem map_reverse_map_reverse (board : List (List Nat)) :
    (board.map List.reverse).map List.reverse = board := by
  simp [List.map_map, Function.comp_def]

theorem wf_map_reverse {board : List (List Nat)} (h : Wf board) :
    Wf (board.map List.reverse) := by
  obtain ⟨hlen, hrows⟩ := h
  constructor
  · rw [List.length_map]; exact hlen
  · intro row hrow
    rw [List.mem_map] at hrow
    obtain ⟨r0, hr0, hrow⟩ := hrow
    rw [← hrow, List.length_reverse]
    exact hrows r0 hr0

/-- C1: for every 4×4 grid and every direction in
{LEFT, RIGHT, UP, DOWN}, the move engine reports `moved = false` iff
the resulting grid is cell-wise identical to the input grid. -/
theorem moved_false_iff_board_unchanged
    (board : List (List Nat)) (direction : String) (hwf : Wf board)
    (hdir : direction ∈ ["LEFT", "RIGHT", "UP", "DOWN"]) :
    (direction_result board direction).moved = false ↔
      (direction_result board direction).board = board := by
  simp only [List.mem_cons, List.mem_singleton, List.not_mem_nil, or_false] at hdir
  rcases hdir with h | h | h | h <;> subst h
  · rw [direction_result_left]
    exact move_left_moved_iff board
  · rw [direction_result_right]
    show (move_left (board.map List.reverse)).moved = false ↔ _
    rw [move_left_moved_iff]
    constructor
    · intro h
      rw [h]
      exact map_reverse_map_reverse board
    · intro h
      have h2 := congrArg (List.map List.reverse) h
      rwa [map_reverse_map_reverse] at h2
  · rw [direction_result_up]
    show (move_left (transpose board)).moved = false ↔ _
    rw [move_left_moved_iff]
    constructor
    · intro h
      rw [h]
      exact transpose_transpose hwf
    · intro h
      have h2 := congrArg transpose h
      rwa [transpose_transpose (move_left_wf _ (wf_transpose hwf))] at h2
  · rw [direction_result_down]
    show (move_left ((transpose board).map List.reverse)).moved = false ↔ _
    rw [move_left_moved_iff]
    constructor
    · intro h
      rw [h, map_reverse_map_reverse]
      exact transpose_transpose hwf
    · intro h
      have h2 := congrArg transpose h
      have hwfm : Wf ((move_left ((transpose board).map List.reverse)).board.map
          List.reverse) :=
        wf_map_reverse (move_left_wf _ (wf_map_reverse (wf_transpose hwf)))
      rw [transpose_transpose hwfm] at h2
      have h3 := congrArg (List.map List.reverse) h2
      rwa [map_reverse_map_reverse] at h3

/-- Witness for C1 at a concrete grid and direction. -/
theorem moved_false_iff_board_unchanged_witness :
    (direction_result [[2, 0, 0, 0], [0, 0, 0, 0], [0, 0, 0, 0], [0, 0, 0, 2]]
        "LEFT").moved = false ↔
      (direction_result [[2, 0, 0, 0], [0, 0, 0, 0], [0, 0, 0, 0], [0, 0, 0, 2]]
        "LEFT").board = [[2, 0, 0, 0], [0, 0, 0, 0], [0, 0, 0, 0], [0, 0, 0, 2]] :=
  moved_false_iff_board_unchanged _ "LEFT" (by decide) (by simp)

/-- The moves recorded by the scan list each consumed entry exactly
once, as `(pre-merge value, source cell)`, in input order: no tile —
in particular no freshly merged tile, which is never an input entry —
is consumed twice. -/
theorem slide_scan_sources (endAt : Nat → Nat × Nat) :
    ∀ (l : List (Nat × Nat × Nat)) (t : Nat),
      (slide_scan endAt l t).2.2.map (fun m => (m.value, m.start)) = l
  | [], _ => rfl
  | [(v, sr, sc)], _ => rfl
  | (v, sr, sc) :: (v2, sr2, sc2) :: rest, t => by
    by_cases h : v2 = v
    · have ih := slide_scan_sources endAt rest (t + 1)
      simp only [slide_scan, if_pos h, List.map_cons]
      rw [ih]
    · have ih := slide_scan_sources endAt ((v2, sr2, sc2) :: rest) (t + 1)
      simp only [slide_scan, if_neg h, List.map_cons]
      simp only [List.map_cons] at ih
      rw [ih]

/-- C2: slide-left never chain-merges — every recorded movement carries
the pre-merge value of one original non-zero tile and each original
tile is consumed exactly once, so a tile produced by a merge can never
merge again in the same turn — and the two concrete examples:
`[2,2,2,0] ↦ [4,2,0,0]` with gain 4 and `[4,0,4,4] ↦ [8,4,0,0]` with
gain 8 (the leftmost eligible pair merges first). -/
theorem no_chain_merge_and_leftmost_first :
    (∀ (r : Nat) (row : List Nat),
      (move_left_row r row).moves.map (fun m => (m.value, m.start)) =
        nonZeroEntries r row) ∧
    (move_left_row 0 [2, 2, 2, 0]).newRow = [4, 2, 0, 0] ∧
    (move_left_row 0 [2, 2, 2, 0]).gain = 4 ∧
    (move_left_row 0 [4, 0, 4, 4]).newRow = [8, 4, 0, 0] ∧
    (move_left_row 0 [4, 0, 4, 4]).gain = 8 := by
  refine ⟨fun r row => ?_, by decide, by decide, by decide, by decide⟩
  exact slide_scan_sources (fun t => (r, t)) (nonZeroEntries r row) 0

/-- C8: `_apply_score_gain` is a no-op without a save for `gain ≤ 0`;
for `gain > 0` it adds the gain to the total score, raises the best
score to the session score exactly when the session score exceeds it,
and requests persistence of the updated pair. -/
theorem apply_score_gain_spec (best total score gain : Int) :
    (gain ≤ 0 → apply_score_gain best total score gain = (best, total, none)) ∧
    (0 < gain →
      apply_score_gain best total score gain =
        ((if score > best then score else best), total + gain,
          some (save_score_state (if score > best then score else best)
            (total + gain)))) := by
  constructor
  · intro h
    unfold apply_score_gain
    rw [if_pos h]
  · intro h
    unfold apply_score_gain
    rw [if_neg (not_le.mpr h)]

/-- Witness for C8 at concrete gains on both sides of the split. -/
theorem apply_score_gain_spec_witness :
    apply_score_gain 5 7 3 0 = (5, 7, none) ∧
    apply_score_gain 5 7 9 2 = (9, 9, some (save_score_state 9 9)) := by
  constructor
  · exact (apply_score_gain_spec 5 7 3 0).1 (by decide)
  · have h := (apply_score_gain_spec 5 7 9 2).2 (by decide)
    simpa using h

/-- C9: the ledger round-trips through the store, and every failure
mode of the store (missing, corrupt/malformed, unreadable) loads as
the zero-valued ledger. -/
theorem ledger_round_trip_and_fallback :
    load_score_state (save_score_state 100 500) = (100, 500) ∧
    load_score_state .missing = (0, 0) ∧
    load_score_state .malformed = (0, 0) ∧
    load_score_state .unreadable = (0, 0) :=
  ⟨rfl, rfl, rfl, rfl⟩

theorem getD_mem_of_lt {α : Type} {l : List α} {i : Nat} (d : α) (h : i < l.length) :
    l.getD i d ∈ l := by
  rw [List.getD_eq_getElem?_getD, List.getElem?_eq_getElem h]
  exact List.getElem_mem h

theorem empty_cells_spec {board : List (List Nat)} {p : Nat × Nat}
    (h : p ∈ empty_cells board) :
    p.1 < GRID_SIZE ∧ p.2 < GRID_SIZE ∧ cell board p.1 p.2 = 0 := by
  unfold empty_cells at h
  rw [List.mem_filter] at h
  obtain ⟨hmem, hcell⟩ := h
  rw [List.mem_flatten] at hmem
  obtain ⟨sub, hsub, hp⟩ := hmem
  rw [List.mem_map] at hsub
  obtain ⟨r, hr, hsub⟩ := hsub
  subst hsub
  rw [List.mem_map] at hp
  obtain ⟨c, hc, hp⟩ := hp
  subst hp
  rw [List.mem_range] at hr hc
  exact ⟨hr, hc, by simpa using hcell⟩

theorem getD_set_ne {α : Type} (l : List α) (i j : Nat) (a d : α) (h : i ≠ j) :
    (l.set i a).getD j d = l.getD j d := by
  rw [List.getD_eq_getElem?_getD, List.getElem?_set_ne h, ← List.getD_eq_getElem?_getD]

theorem getD_set_self {α : Type} (l : List α) (i : Nat) (a d : α) (h : i < l.length) :
    (l.set i a).getD i d = a := by
  rw [List.getD_eq_getElem?_getD, List.getElem?_set_self h, Option.getD_some]

theorem cell_set_cell_ne (board : List (List Nat)) (r c v r' c' : Nat)
    (h : (r', c') ≠ (r, c)) :
    cell (set_cell board r c v) r' c' = cell board r' c' := by
  unfold cell set_cell
  by_cases hr : r' = r
  · subst hr
    have hc : c ≠ c' := by
      intro he
      exact h (by rw [he])
    by_cases hlt : r' < board.length
    · rw [getD_set_self board r' _ [] hlt, getD_set_ne _ c c' v 0 hc]
    · rw [List.set_eq_of_length_le (Nat.le_of_not_lt hlt)]
  · rw [getD_set_ne board r r' _ [] (fun he => hr he.symm)]

theorem cell_set_cell_self (board : List (List Nat)) (r c v : Nat)
    (hr : r < board.length) (hc : c < (board.getD r []).length) :
    cell (set_cell board r c v) r c = v := by
  unfold cell set_cell
  rw [getD_set_self board r _ [] hr, getD_set_self _ c v 0 hc]

theorem wf_set_cell {board : List (List Nat)} (h : Wf board) {r : Nat} (c v : Nat)
    (hr : r < GRID_SIZE) : Wf (set_cell board r c v) := by
  obtain ⟨hlen, hrows⟩ := h
  have hr' : r < board.length := by rw [hlen]; exact hr
  constructor
  · rw [set_cell, List.length_set]
    exact hlen
  · intro row hrow
    rw [set_cell] at hrow
    rcases List.mem_or_eq_of_mem_set hrow with h1 | h1
    · exact hrows row h1
    · subst h1
      rw [List.length_set]
      exact hrows _ (getD_mem_of_lt [] hr')

theorem spawn_tile_won (rand : SpawnRand) (st : GameState) :
    (spawn_tile rand st).2.won = st.won := by
  by_cases h : (empty_cells st.board).isEmpty <;> simp [spawn_tile, h]

theorem spawn_tile_scores (rand : SpawnRand) (st : GameState) :
    (spawn_tile rand st).2.score = st.score ∧
    (spawn_tile rand st).2.best_score = st.best_score ∧
    (spawn_tile rand st).2.total_score = st.total_score := by
  by_cases h : (empty_cells st.board).isEmpty <;> simp [spawn_tile, h]

theorem spawn_tile_board (rand : SpawnRand) (st : GameState) :
    (spawn_tile rand st).2.board = st.board ∨
    ∃ p ∈ empty_cells st.board,
      (spawn_tile rand st).2.board =
        set_cell st.board p.1 p.2 (if rand.four then 4 else 2) := by
  by_cases h : (empty_cells st.board).isEmpty
  · left
    simp [spawn_tile, h]
  · right
    have hne : empty_cells st.board ≠ [] := by
      intro hnil
      rw [hnil] at h
      exact h rfl
    have hlen : 0 < (empty_cells st.board).length := List.length_pos.mpr hne
    refine ⟨(empty_cells st.board).getD
      (rand.pick % (empty_cells st.board).length) (0, 0),
      getD_mem_of_lt _ (Nat.mod_lt _ hlen), ?_⟩
    simp [spawn_tile, h]

theorem direction_result_wf (board : List (List Nat)) (direction : String)
    (h : Wf board) : Wf (direction_result board direction).board := by
  unfold direction_result
  split_ifs
  · exact move_left_wf _ h
  · exact wf_map_reverse (move_left_wf _ (wf_map_reverse h))
  · exact wf_transpose (move_left_wf _ (wf_transpose h))
  · exact wf_transpose (wf_map_reverse (move_left_wf _ (wf_map_reverse (wf_transpose h))))

theorem cell_eq_getElem {board : List (List Nat)} {r c : Nat}
    (hr : r < board.length) (hc : c < board[r].length) :
    cell board r c = board[r][c] := by
  unfold cell
  rw [List.getD_eq_getElem?_getD board, List.getElem?_eq_getElem hr, Option.getD_some,
    List.getD_eq_getElem?_getD, List.getElem?_eq_getElem hc, Option.getD_some]

theorem any_2048_of_cell {board : List (List Nat)} (hwf : Wf board) {r c : Nat}
    (hr : r < GRID_SIZE) (hc : c < GRID_SIZE)
    (h : 2048 ≤ cell board r c) :
    (board.any (fun row => row.any (fun v => decide (2048 ≤ v)))) = true := by
  obtain ⟨hlen, hrows⟩ := hwf
  have hr' : r < board.length := by rw [hlen]; exact hr
  have hc' : c < board[r].length := by
    rw [hrows board[r] (List.getElem_mem hr')]
    exact hc
  rw [List.any_eq_true]
  refine ⟨board[r], List.getElem_mem hr', ?_⟩
  rw [List.any_eq_true]
  refine ⟨board[r][c], List.getElem_mem hc', ?_⟩
  rw [cell_eq_getElem hr' hc'] at h
  simpa using h

theorem move_accept_board (rand : SpawnRand) (st : GameState) (result : MoveResult) :
    (move_accept rand st result).2.board =
      (spawn_tile rand { st with
        board := result.board
        score := st.score + (result.score_gain : Int)
        best_score := (apply_score_gain st.best_score st.total_score
          (st.score + (result.score_gain : Int)) (result.score_gain : Int)).1
        total_score := (apply_score_gain st.best_score st.total_score
          (st.score + (result.score_gain : Int)) (result.score_gain : Int)).2.1
        won := st.won ||
          result.board.any (fun row => row.any (fun v => decide (2048 ≤ v))) }).2.board := by
  unfold move_accept
  by_cases h : result.board.any (fun row => row.any (fun v => decide (2048 ≤ v)))
  · simp only [h, if_true]
    congr 1
    cases hw : st.won <;> simp
  · simp only [h, if_false]
    congr 1
    cases hw : st.won <;> simp [h]

theorem move_accept_won_eq (rand : SpawnRand) (st : GameState) (result : MoveResult) :
    (move_accept rand st result).2.won =
      (st.won || result.board.any (fun row => row.any (fun v => decide (2048 ≤ v)))) := by
  simp only [move_accept]
  rw [spawn_tile_won]
  by_cases h : result.board.any (fun row => row.any (fun v => decide (2048 ≤ v))) <;>
    cases hw : st.won <;> simp [h]

theorem move_accept_game_over (rand : SpawnRand) (st : GameState) (result : MoveResult) :
    (move_accept rand st result).2.game_over =
      !(can_move (move_accept rand st result).2.board) := rfl

/-- C6: rejected commands are atomic no-ops — an unrecognized direction
token, or a recognized direction whose move engine reports
`moved = false`, returns no outcome and leaves the entire game state
(grid, scores, flags, last spawn) unchanged, with no spawn and no
ledger update. -/
theorem rejected_command_is_noop (rand : SpawnRand) (st : GameState) (direction : String)
    (h : direction ∉ (["LEFT", "RIGHT", "UP", "DOWN"] : List String) ∨
         (direction_result st.board direction).moved = false) :
    move rand st direction = (none, st) := by
  unfold move
  rcases h with h | h
  · rw [if_neg h]
  · by_cases hm : direction ∈ (["LEFT", "RIGHT", "UP", "DOWN"] : List String)
    · rw [if_pos hm]
      simp [h]
    · rw [if_neg hm]

/-- Witness for C6: an unrecognized token at a concrete state. -/
theorem rejected_command_is_noop_witness :
    move ⟨0, false⟩
      ⟨0, 0, 0, [[2, 0, 0, 0], [0, 0, 0, 0], [0, 0, 0, 0], [0, 0, 0, 0]],
        false, false, none⟩ "NONE" =
      (none, ⟨0, 0, 0, [[2, 0, 0, 0], [0, 0, 0, 0], [0, 0, 0, 0], [0, 0, 0, 0]],
        false, false, none⟩) :=
  rejected_command_is_noop _ _ _ (Or.inl (by decide))

theorem spawn_preserves_big_cell {rand : SpawnRand} {stX : GameState}
    (hwf : Wf stX.board) {r c : Nat} (hr : r < GRID_SIZE) (hc : c < GRID_SIZE)
    (h : 2048 ≤ cell (spawn_tile rand stX).2.board r c) :
    ∃ r' c', r' < GRID_SIZE ∧ c' < GRID_SIZE ∧ 2048 ≤ cell stX.board r' c' := by
  rcases spawn_tile_board rand stX with hb | ⟨p, hp, hb⟩
  · rw [hb] at h
    exact ⟨r, c, hr, hc, h⟩
  · obtain ⟨hp1, hp2, hp0⟩ := empty_cells_spec hp
    by_cases hpe : (r, c) = (p.1, p.2)
    · obtain ⟨hlen, hrows⟩ := hwf
      have hr' : p.1 < stX.board.length := by rw [hlen]; exact hp1
      have hc' : p.2 < (stX.board.getD p.1 []).length := by
        rw [hrows _ (getD_mem_of_lt [] hr')]
        exact hp2
      have he1 : r = p.1 := congrArg Prod.fst hpe
      have he2 : c = p.2 := congrArg Prod.snd hpe
      rw [hb, he1, he2, cell_set_cell_self _ _ _ _ hr' hc'] at h
      rcases hf : rand.four <;> rw [hf] at h <;> simp at h
    · rw [hb, cell_set_cell_ne _ _ _ _ _ _ hpe] at h
      exact ⟨r, c, hr, hc, h⟩

/-- C7: the `Won` flag is latched — it is never cleared by any later
command, and after any accepted move whose final grid holds a cell
`≥ 2048` the flag is set. -/
theorem won_flag_latched (rand : SpawnRand) (st : GameState) (direction : String) :
    (st.won = true → ((move rand st direction).2).won = true) ∧
    (∀ res st', Wf st.board → move rand st direction = (some res, st') →
      ∀ r c, r < GRID_SIZE → c < GRID_SIZE → 2048 ≤ cell st'.board r c →
        st'.won = true) := by
  constructor
  · intro hw
    unfold move
    by_cases hm : direction ∈ (["LEFT", "RIGHT", "UP", "DOWN"] : List String)
    · rw [if_pos hm]
      by_cases hmv : (direction_result st.board direction).moved
      · simp only [hmv, if_true]
        rw [move_accept_won_eq, hw, Bool.true_or]
      · simp [hmv, hw]
    · rw [if_neg hm]
      exact hw
  · intro res st' hwf hmv r c hr hc hcell
    unfold move at hmv
    by_cases hm : direction ∈ (["LEFT", "RIGHT", "UP", "DOWN"] : List String)
    case neg =>
      rw [if_neg hm] at hmv
      exact absurd (congrArg Prod.fst hmv) (by simp)
    rw [if_pos hm] at hmv
    by_cases hmvd : (direction_result st.board direction).moved
    case neg =>
      simp [hmvd] at hmv
    simp only [hmvd, if_true] at hmv
    have hst' : st' = (move_accept rand st (direction_result st.board direction)).2 :=
      (congrArg Prod.snd hmv).symm
    subst hst'
    have hwfres : Wf (direction_result st.board direction).board :=
      direction_result_wf _ _ hwf
    rw [move_accept_board] at hcell
    obtain ⟨r', c', hr', hc', hbig⟩ := spawn_preserves_big_cell hwfres hr hc hcell
    rw [move_accept_won_eq, any_2048_of_cell hwfres hr' hc' hbig, Bool.or_true]

/-- Witness for C7: a latched state stays won, and an accepted move
with a 2048 tile on the final board reports `won = true`. -/
theorem won_flag_latched_witness :
    ((move ⟨0, false⟩
      ⟨0, 0, 0, [[2, 0, 0, 0], [0, 0, 0, 0], [0, 0, 0, 0], [0, 0, 0, 2]],
        false, true, none⟩ "LEFT").2).won = true ∧
    ((move ⟨0, false⟩
      ⟨0, 0, 0, [[2048, 0, 0, 0], [0, 0, 0, 0], [0, 0, 0, 0], [0, 0, 0, 2]],
        false, false, none⟩ "LEFT").2).won = true := by
  constructor
  · exact (won_flag_latched ⟨0, false⟩
      ⟨0, 0, 0, [[2, 0, 0, 0], [0, 0, 0, 0], [0, 0, 0, 0], [0, 0, 0, 2]],
        false, true, none⟩ "LEFT").1 rfl
  · exact (won_flag_latched ⟨0, false⟩
      ⟨0, 0, 0, [[2048, 0, 0, 0], [0, 0, 0, 0], [0, 0, 0, 0], [0, 0, 0, 2]],
        false, false, none⟩ "LEFT").2
      ((move ⟨0, false⟩
        ⟨0, 0, 0, [[2048, 0, 0, 0], [0, 0, 0, 0], [0, 0, 0, 0], [0, 0, 0, 2]],
          false, false, none⟩ "LEFT").1.getD ⟨[], 0, false, [], none⟩)
      ((move ⟨0, false⟩
        ⟨0, 0, 0, [[2048, 0, 0, 0], [0, 0, 0, 0], [0, 0, 0, 0], [0, 0, 0, 2]],
          false, false, none⟩ "LEFT").2)
      (by decide) (by decide) 0 0 (by decide) (by decide) (by decide)

/-- C10: spawn frame property — on a grid with at least one empty
cell, the spawn engine picks one previously-empty in-range cell, sets
it to 2 or 4, leaves every other cell unchanged and returns the
spawned `(row, col, value)`; on a full grid it changes nothing and
reports no spawn. -/
theorem spawn_frame (rand : SpawnRand) (st : GameState) (hwf : Wf st.board) :
    (empty_cells st.board = [] → spawn_tile rand st = (none, st)) ∧
    (empty_cells st.board ≠ [] →
      ∃ r c v, spawn_tile rand st =
          (some (r, c, v),
            { st with board := set_cell st.board r c v
                      last_spawn := some (r, c, v) }) ∧
        r < GRID_SIZE ∧ c < GRID_SIZE ∧ cell st.board r c = 0 ∧ (v = 2 ∨ v = 4) ∧
        cell (spawn_tile rand st).2.board r c = v ∧
        (∀ r' c', (r', c') ≠ (r, c) →
          cell (spawn_tile rand st).2.board r' c' = cell st.board r' c')) := by
  constructor
  · intro h
    simp [spawn_tile, h]
  · intro h
    have hie : (empty_cells st.board).isEmpty = false := by
      cases he : empty_cells st.board with
      | nil => exact absurd he h
      | cons a l => rfl
    have hlen : 0 < (empty_cells st.board).length := List.length_pos.mpr h
    set p := (empty_cells st.board).getD (rand.pick % (empty_cells st.board).length)
      (0, 0) with hpdef
    have hpmem : p ∈ empty_cells st.board := getD_mem_of_lt _ (Nat.mod_lt _ hlen)
    obtain ⟨h1, h2, h0⟩ := empty_cells_spec hpmem
    have hr' : p.1 < st.board.length := by rw [hwf.1]; exact h1
    have hc' : p.2 < (st.board.getD p.1 []).length := by
      rw [hwf.2 _ (getD_mem_of_lt [] hr')]
      exact h2
    have hsp : spawn_tile rand st =
        (some (p.1, p.2, if rand.four then 4 else 2),
          { st with board := set_cell st.board p.1 p.2 (if rand.four then 4 else 2)
                    last_spawn := some (p.1, p.2, if rand.four then 4 else 2) }) := by
      simp [spawn_tile, hie, hpdef]
    refine ⟨p.1, p.2, if rand.four then 4 else 2, hsp, h1, h2, h0, ?_, ?_, ?_⟩
    · rcases rand.four <;> simp
    · rw [hsp]
      exact cell_set_cell_self _ _ _ _ hr' hc'
    · intro r' c' hne
      rw [hsp]
      exact cell_set_cell_ne _ _ _ _ _ _ hne

/-- Witness for C10: a board with empty cells and a full board. -/
theorem spawn_frame_witness :
    (spawn_tile ⟨0, false⟩
      ⟨0, 0, 0, [[2, 4, 2, 4], [4, 2, 4, 2], [2, 4, 2, 4], [4, 2, 4, 2]],
        false, false, none⟩ =
      (none, ⟨0, 0, 0, [[2, 4, 2, 4], [4, 2, 4, 2], [2, 4, 2, 4], [4, 2, 4, 2]],
        false, false, none⟩)) ∧
    (∃ r c v, spawn_tile ⟨0, false⟩
        ⟨0, 0, 0, [[2, 0, 0, 0], [0, 0, 0, 0], [0, 0, 0, 0], [0, 0, 0, 0]],
          false, false, none⟩ =
          (some (r, c, v),
            { (⟨0, 0, 0, [[2, 0, 0, 0], [0, 0, 0, 0], [0, 0, 0, 0], [0, 0, 0, 0]],
              false, false, none⟩ : GameState) with
                board := set_cell [[2, 0, 0, 0], [0, 0, 0, 0], [0, 0, 0, 0],
                  [0, 0, 0, 0]] r c v
                last_spawn := some (r, c, v) }) ∧
        r < GRID_SIZE ∧ c < GRID_SIZE ∧
        cell [[2, 0, 0, 0], [0, 0, 0, 0], [0, 0, 0, 0], [0, 0, 0, 0]] r c = 0 ∧
        (v = 2 ∨ v = 4) ∧
        cell (spawn_tile ⟨0, false⟩
          ⟨0, 0, 0, [[2, 0, 0, 0], [0, 0, 0, 0], [0, 0, 0, 0], [0, 0, 0, 0]],
            false, false, none⟩).2.board r c = v ∧
        (∀ r' c', (r', c') ≠ (r, c) →
          cell (spawn_tile ⟨0, false⟩
            ⟨0, 0, 0, [[2, 0, 0, 0], [0, 0, 0, 0], [0, 0, 0, 0], [0, 0, 0, 0]],
              false, false, none⟩).2.board r' c' =
            cell [[2, 0, 0, 0], [0, 0, 0, 0], [0, 0, 0, 0], [0, 0, 0, 0]] r' c')) := by
  constructor
  · exact (spawn_frame ⟨0, false⟩ _ (by decide)).1 (by decide)
  · exact (spawn_frame ⟨0, false⟩ _ (by decide)).2 (by decide)

theorem spawn_tile_wf (rand : SpawnRand) (st : GameState) (h : Wf st.board) :
    Wf (spawn_tile rand st).2.board := by
  rcases spawn_tile_board rand st with hb | ⟨p, hp, hb⟩
  · rw [hb]
    exact h
  · rw [hb]
    exact wf_set_cell h _ _ (empty_cells_spec hp).1

theorem can_move_eq_false_iff {board : List (List Nat)} (hwf : Wf board) :
    can_move board = false ↔ full_and_stuck board := by
  unfold can_move full_and_stuck
  simp only [Bool.or_eq_false_iff]
  constructor
  · rintro ⟨⟨hA, hB⟩, hC⟩
    rw [List.any_eq_false] at hA hB hC
    refine ⟨?_, ?_, ?_⟩
    · intro r hr c hc hzero
      have hr' : r < board.length := by rw [hwf.1]; exact hr
      have hrowmem := getD_mem_of_lt ([] : List Nat) hr'
      have hc' : c < (board.getD r []).length := by
        rw [hwf.2 _ hrowmem]
        exact hc
      apply hA (board.getD r []) hrowmem
      have hcell : (board.getD r [])[c] = 0 := by
        have : cell board r c = (board.getD r [])[c] := by
          unfold cell
          rw [List.getD_eq_getElem?_getD (board.getD r []),
            List.getElem?_eq_getElem hc', Option.getD_some]
        rw [← this, hzero]
      have hmem : (0 : Nat) ∈ board.getD r [] := hcell ▸ List.getElem_mem hc'
      simpa using hmem
    · intro r hr c hc heq
      apply hB r (List.mem_range.mpr hr)
      rw [List.any_eq_true]
      exact ⟨c, List.mem_range.mpr hc, by simpa using heq⟩
    · intro c hc r hr heq
      apply hC c (List.mem_range.mpr hc)
      rw [List.any_eq_true]
      exact ⟨r, List.mem_range.mpr hr, by simpa using heq⟩
  · rintro ⟨hZ, hH, hV⟩
    refine ⟨⟨?_, ?_⟩, ?_⟩
    · rw [List.any_eq_false]
      intro row hrow hcont
      have hmem : (0 : Nat) ∈ row := by simpa using hcont
      obtain ⟨i, hi, hieq⟩ := List.mem_iff_getElem.mp hrow
      obtain ⟨c, hc, hceq⟩ := List.mem_iff_getElem.mp hmem
      apply hZ i (by rw [← hwf.1]; exact hi) c (by rw [← hwf.2 row hrow]; exact hc)
      have hrgetD : board.getD i [] = row := by
        rw [List.getD_eq_getElem?_getD, List.getElem?_eq_getElem hi, Option.getD_some,
          hieq]
      unfold cell
      rw [hrgetD, List.getD_eq_getElem?_getD, List.getElem?_eq_getElem hc,
        Option.getD_some, hceq]
    · rw [List.any_eq_false]
      intro r hr hinner
      rw [List.any_eq_true] at hinner
      obtain ⟨c, hc, hbeq⟩ := hinner
      exact hH r (List.mem_range.mp hr) c (List.mem_range.mp hc) (by simpa using hbeq)
    · rw [List.any_eq_false]
      intro c hc hinner
      rw [List.any_eq_true] at hinner
      obtain ⟨r, hr, hbeq⟩ := hinner
      exact hV c (List.mem_range.mp hc) r (List.mem_range.mp hr) (by simpa using hbeq)

theorem row_stuck (r a b c d : Nat) (ha : a ≠ 0) (hb : b ≠ 0) (hc : c ≠ 0) (hd : d ≠ 0)
    (hab : a ≠ b) (hbc : b ≠ c) (hcd : c ≠ d) :
    (move_left_row r [a, b, c, d]).newRow = [a, b, c, d] := by
  have hba : ¬(b = a) := fun h => hab h.symm
  have hcb : ¬(c = b) := fun h => hbc h.symm
  have hdc : ¬(d = c) := fun h => hcd h.symm
  have hfa : (a != 0) = true := bne_iff_ne.mpr ha
  have hfb : (b != 0) = true := bne_iff_ne.mpr hb
  have hfc : (c != 0) = true := bne_iff_ne.mpr hc
  have hfd : (d != 0) = true := bne_iff_ne.mpr hd
  have hnz : nonZeroEntries r [a, b, c, d] = [(a, r, 0), (b, r, 1), (c, r, 2), (d, r, 3)] := by
    unfold nonZeroEntries
    have he : ([a, b, c, d].enum) = [(0, a), (1, b), (2, c), (3, d)] := rfl
    rw [he]
    simp [List.filter_cons, hfa, hfb, hfc, hfd]
  unfold move_left_row
  rw [hnz]
  simp [slide_scan, hba, hcb, hdc, GRID_SIZE]

theorem stuck_no_move {board : List (List Nat)} (hwf : Wf board)
    (hfs : full_and_stuck board) :
    ∀ direction ∈ (["LEFT", "RIGHT", "UP", "DOWN"] : List String),
      (direction_result board direction).moved = false := by
  obtain ⟨a00, a01, a02, a03, a10, a11, a12, a13, a20, a21, a22, a23,
    a30, a31, a32, a33, hbeq⟩ := wf_board_eq hwf
  subst hbeq
  have z00 : a00 ≠ 0 := hfs.1 0 (by decide) 0 (by decide)
  have z01 : a01 ≠ 0 := hfs.1 0 (by decide) 1 (by decide)
  have z02 : a02 ≠ 0 := hfs.1 0 (by decide) 2 (by decide)
  have z03 : a03 ≠ 0 := hfs.1 0 (by decide) 3 (by decide)
  have z10 : a10 ≠ 0 := hfs.1 1 (by decide) 0 (by decide)
  have z11 : a11 ≠ 0 := hfs.1 1 (by decide) 1 (by decide)
  have z12 : a12 ≠ 0 := hfs.1 1 (by decide) 2 (by decide)
  have z13 : a13 ≠ 0 := hfs.1 1 (by decide) 3 (by decide)
  have z20 : a20 ≠ 0 := hfs.1 2 (by decide) 0 (by decide)
  have z21 : a21 ≠ 0 := hfs.1 2 (by decide) 1 (by decide)
  have z22 : a22 ≠ 0 := hfs.1 2 (by decide) 2 (by decide)
  have z23 : a23 ≠ 0 := hfs.1 2 (by decide) 3 (by decide)
  have z30 : a30 ≠ 0 := hfs.1 3 (by decide) 0 (by decide)
  have z31 : a31 ≠ 0 := hfs.1 3 (by decide) 1 (by decide)
  have z32 : a32 ≠ 0 := hfs.1 3 (by decide) 2 (by decide)
  have z33 : a33 ≠ 0 := hfs.1 3 (by decide) 3 (by decide)
  have hH00 : a00 ≠ a01 := hfs.2.1 0 (by decide) 0 (by decide)
  have hH01 : a01 ≠ a02 := hfs.2.1 0 (by decide) 1 (by decide)
  have hH02 : a02 ≠ a03 := hfs.2.1 0 (by decide) 2 (by decide)
  have hH10 : a10 ≠ a11 := hfs.2.1 1 (by decide) 0 (by decide)
  have hH11 : a11 ≠ a12 := hfs.2.1 1 (by decide) 1 (by decide)
  have hH12 : a12 ≠ a13 := hfs.2.1 1 (by decide) 2 (by decide)
  have hH20 : a20 ≠ a21 := hfs.2.1 2 (by decide) 0 (by decide)
  have hH21 : a21 ≠ a22 := hfs.2.1 2 (by decide) 1 (by decide)
  have hH22 : a22 ≠ a23 := hfs.2.1 2 (by decide) 2 (by decide)
  have hH30 : a30 ≠ a31 := hfs.2.1 3 (by decide) 0 (by decide)
  have hH31 : a31 ≠ a32 := hfs.2.1 3 (by decide) 1 (by decide)
  have hH32 : a32 ≠ a33 := hfs.2.1 3 (by decide) 2 (by decide)
  have hV00 : a00 ≠ a10 := hfs.2.2 0 (by decide) 0 (by decide)
  have hV10 : a10 ≠ a20 := hfs.2.2 0 (by decide) 1 (by decide)
  have hV20 : a20 ≠ a30 := hfs.2.2 0 (by decide) 2 (by decide)
  have hV01 : a01 ≠ a11 := hfs.2.2 1 (by decide) 0 (by decide)
  have hV11 : a11 ≠ a21 := hfs.2.2 1 (by decide) 1 (by decide)
  have hV21 : a21 ≠ a31 := hfs.2.2 1 (by decide) 2 (by decide)
  have hV02 : a02 ≠ a12 := hfs.2.2 2 (by decide) 0 (by decide)
  have hV12 : a12 ≠ a22 := hfs.2.2 2 (by decide) 1 (by decide)
  have hV22 : a22 ≠ a32 := hfs.2.2 2 (by decide) 2 (by decide)
  have hV03 : a03 ≠ a13 := hfs.2.2 3 (by decide) 0 (by decide)
  have hV13 : a13 ≠ a23 := hfs.2.2 3 (by decide) 1 (by decide)
  have hV23 : a23 ≠ a33 := hfs.2.2 3 (by decide) 2 (by decide)
  intro direction hdir
  simp only [List.mem_cons, List.mem_singleton, List.not_mem_nil, or_false] at hdir
  rcases hdir with h | h | h | h <;> subst h
  · rw [direction_result_left, move_left_moved_iff, move_left_board_eq]
    have he : List.enum [[a00, a01, a02, a03], [a10, a11, a12, a13],
        [a20, a21, a22, a23], [a30, a31, a32, a33]] =
        [(0, [a00, a01, a02, a03]), (1, [a10, a11, a12, a13]),
         (2, [a20, a21, a22, a23]), (3, [a30, a31, a32, a33])] := rfl
    rw [he]
    simp only [List.map_cons, List.map_nil]
    rw [row_stuck 0 a00 a01 a02 a03 z00 z01 z02 z03 hH00 hH01 hH02,
      row_stuck 1 a10 a11 a12 a13 z10 z11 z12 z13 hH10 hH11 hH12,
      row_stuck 2 a20 a21 a22 a23 z20 z21 z22 z23 hH20 hH21 hH22,
      row_stuck 3 a30 a31 a32 a33 z30 z31 z32 z33 hH30 hH31 hH32]
  · rw [direction_result_right_moved]
    rw [move_left_moved_iff, move_left_board_eq]
    have he : List.enum ([[a00, a01, a02, a03], [a10, a11, a12, a13],
        [a20, a21, a22, a23], [a30, a31, a32, a33]].map List.reverse) =
        [(0, [a03, a02, a01, a00]), (1, [a13, a12, a11, a10]),
         (2, [a23, a22, a21, a20]), (3, [a33, a32, a31, a30])] := rfl
    rw [he]
    simp only [List.map_cons, List.map_nil]
    rw [row_stuck 0 a03 a02 a01 a00 z03 z02 z01 z00
        (Ne.symm hH02) (Ne.symm hH01) (Ne.symm hH00),
      row_stuck 1 a13 a12 a11 a10 z13 z12 z11 z10
        (Ne.symm hH12) (Ne.symm hH11) (Ne.symm hH10),
      row_stuck 2 a23 a22 a21 a20 z23 z22 z21 z20
        (Ne.symm hH22) (Ne.symm hH21) (Ne.symm hH20),
      row_stuck 3 a33 a32 a31 a30 z33 z32 z31 z30
        (Ne.symm hH32) (Ne.symm hH31) (Ne.symm hH30)]
    rfl
  · rw [direction_result_up_moved]
    rw [move_left_moved_iff, move_left_board_eq]
    have he : List.enum (transpose [[a00, a01, a02, a03], [a10, a11, a12, a13],
        [a20, a21, a22, a23], [a30, a31, a32, a33]]) =
        [(0, [a00, a10, a20, a30]), (1, [a01, a11, a21, a31]),
         (2, [a02, a12, a22, a32]), (3, [a03, a13, a23, a33])] := rfl
    rw [he]
    simp only [List.map_cons, List.map_nil]
    rw [row_stuck 0 a00 a10 a20 a30 z00 z10 z20 z30 hV00 hV10 hV20,
      row_stuck 1 a01 a11 a21 a31 z01 z11 z21 z31 hV01 hV11 hV21,
      row_stuck 2 a02 a12 a22 a32 z02 z12 z22 z32 hV02 hV12 hV22,
      row_stuck 3 a03 a13 a23 a33 z03 z13 z23 z33 hV03 hV13 hV23]
    rfl
  · rw [direction_result_down_moved]
    rw [move_left_moved_iff, move_left_board_eq]
    have he : List.enum ((transpose [[a00, a01, a02, a03], [a10, a11, a12, a13],
        [a20, a21, a22, a23], [a30, a31, a32, a33]]).map List.reverse) =
        [(0, [a30, a20, a10, a00]), (1, [a31, a21, a11, a01]),
         (2, [a32, a22, a12, a02]), (3, [a33, a23, a13, a03])] := rfl
    rw [he]
    simp only [List.map_cons, List.map_nil]
    rw [row_stuck 0 a30 a20 a10 a00 z30 z20 z10 z00
        (Ne.symm hV20) (Ne.symm hV10) (Ne.symm hV00),
      row_stuck 1 a31 a21 a11 a01 z31 z21 z11 z01
        (Ne.symm hV21) (Ne.symm hV11) (Ne.symm hV01),
      row_stuck 2 a32 a22 a12 a02 z32 z22 z12 z02
        (Ne.symm hV22) (Ne.symm hV12) (Ne.symm hV02),
      row_stuck 3 a33 a23 a13 a03 z33 z23 z13 z03
        (Ne.symm hV23) (Ne.symm hV13) (Ne.symm hV03)]
    rfl

/-- C5: after every accepted move the `Over` flag is true iff the
resulting grid has no zero cell and no horizontally- or
vertically-adjacent equal pair; and every grid satisfying that
condition reports `moved = false` in all four directions. -/
theorem over_iff_full_and_stuck :
    (∀ (rand : SpawnRand) (st : GameState) (direction : String) res st',
       Wf st.board → move rand st direction = (some res, st') →
       (st'.game_over = true ↔ full_and_stuck st'.board)) ∧
    (∀ board, Wf board → full_and_stuck board →
       ∀ d ∈ (["LEFT", "RIGHT", "UP", "DOWN"] : List String),
         (direction_result board d).moved = false) := by
  constructor
  · intro rand st direction res st' hwf hmv
    unfold move at hmv
    by_cases hm : direction ∈ (["LEFT", "RIGHT", "UP", "DOWN"] : List String)
    case neg =>
      rw [if_neg hm] at hmv
      exact absurd (congrArg Prod.fst hmv) (by simp)
    rw [if_pos hm] at hmv
    by_cases hmvd : (direction_result st.board direction).moved
    case neg =>
      simp [hmvd] at hmv
    simp only [hmvd, if_true] at hmv
    have hst' : st' = (move_accept rand st (direction_result st.board direction)).2 :=
      (congrArg Prod.snd hmv).symm
    subst hst'
    have hwfres : Wf (direction_result st.board direction).board :=
      direction_result_wf _ _ hwf
    have hwfe : Wf (move_accept rand st (direction_result st.board direction)).2.board := by
      rw [move_accept_board]
      exact spawn_tile_wf _ _ hwfres
    rw [move_accept_game_over, Bool.not_eq_true']
    exact can_move_eq_false_iff hwfe
  · intro board hwf hfs d hd
    exact stuck_no_move hwf hfs d hd

/-- Witness for C5: a concrete accepted move, and a concrete full,
stuck grid that cannot move in any direction. -/
theorem over_iff_full_and_stuck_witness :
    (((move ⟨0, true⟩
        ⟨0, 0, 0, [[2, 0, 0, 0], [0, 0, 0, 0], [0, 0, 0, 0], [0, 0, 0, 2]],
          false, false, none⟩ "LEFT").2).game_over = true ↔
      full_and_stuck ((move ⟨0, true⟩
        ⟨0, 0, 0, [[2, 0, 0, 0], [0, 0, 0, 0], [0, 0, 0, 0], [0, 0, 0, 2]],
          false, false, none⟩ "LEFT").2).board) ∧
    (direction_result [[2, 4, 2, 4], [4, 2, 4, 2], [2, 4, 2, 4], [4, 2, 4, 2]]
      "LEFT").moved = false := by
  constructor
  · exact over_iff_full_and_stuck.1 ⟨0, true⟩
      ⟨0, 0, 0, [[2, 0, 0, 0], [0, 0, 0, 0], [0, 0, 0, 0], [0, 0, 0, 2]],
        false, false, none⟩ "LEFT"
      ((move ⟨0, true⟩
        ⟨0, 0, 0, [[2, 0, 0, 0], [0, 0, 0, 0], [0, 0, 0, 0], [0, 0, 0, 2]],
          false, false, none⟩ "LEFT").1.getD ⟨[], 0, false, [], none⟩)
      ((move ⟨0, true⟩
        ⟨0, 0, 0, [[2, 0, 0, 0], [0, 0, 0, 0], [0, 0, 0, 0], [0, 0, 0, 2]],
          false, false, none⟩ "LEFT").2)
      (by decide) (by decide)
  · exact over_iff_full_and_stuck.2
      [[2, 4, 2, 4], [4, 2, 4, 2], [2, 4, 2, 4], [4, 2, 4, 2]]
      (by decide) (by decide) "LEFT" (by simp)

theorem slide_scan_sum (endAt : Nat → Nat × Nat) :
    ∀ (l : List (Nat × Nat × Nat)) (t : Nat),
      (slide_scan endAt l t).1.sum = (l.map (fun e => e.1)).sum
  | [], _ => rfl
  | [(v, sr, sc)], _ => by simp [slide_scan]
  | (v, sr, sc) :: (v2, sr2, sc2) :: rest, t => by
    by_cases h : v2 = v
    · have ih := slide_scan_sum endAt rest (t + 1)
      simp only [slide_scan, if_pos h, List.map_cons, List.sum_cons]
      rw [ih, h]
      ring
    · have ih := slide_scan_sum endAt ((v2, sr2, sc2) :: rest) (t + 1)
      simp only [slide_scan, if_neg h, List.map_cons, List.sum_cons]
      simp only [List.map_cons, List.sum_cons] at ih
      rw [ih]

theorem enumFrom_filter_sum :
    ∀ (n : Nat) (row : List Nat),
      (((List.enumFrom n row).filter (fun p => p.2 != 0)).map Prod.snd).sum = row.sum
  | _, [] => rfl
  | n, a :: rest => by
    have ih := enumFrom_filter_sum (n + 1) rest
    rw [List.enumFrom_cons, List.filter_cons]
    by_cases h : a = 0
    · subst h
      simp only [bne_self_eq_false, Bool.false_eq_true, if_false, ih, List.sum_cons,
        Nat.zero_add]
    · simp only [bne_iff_ne, ne_eq, h, not_false_eq_true, if_true, List.map_cons,
        List.sum_cons, ih]

theorem nonZeroEntries_sum (r : Nat) (row : List Nat) :
    ((nonZeroEntries r row).map (fun e => e.1)).sum = row.sum := by
  unfold nonZeroEntries
  rw [List.map_map]
  have : ((fun e : Nat × Nat × Nat => e.1) ∘ fun p : Nat × Nat => (p.2, r, p.1)) =
      Prod.snd := rfl
  rw [this, List.enum_eq_enumFrom]
  exact enumFrom_filter_sum 0 row

theorem move_left_row_sum (r : Nat) (row : List Nat) :
    (move_left_row r row).newRow.sum = row.sum := by
  unfold move_left_row
  simp only [List.sum_append]
  rw [slide_scan_sum, nonZeroEntries_sum]
  simp

theorem enumFrom_row_sums :
    ∀ (n : Nat) (board : List (List Nat)),
      (((List.enumFrom n board).map
        (fun p => (move_left_row p.1 p.2).newRow)).map List.sum).sum =
      (board.map List.sum).sum
  | _, [] => rfl
  | n, row :: rest => by
    have ih := enumFrom_row_sums (n + 1) rest
    rw [List.enumFrom_cons]
    simp only [List.map_cons, List.sum_cons, ih, move_left_row_sum]

theorem move_left_sum (board : List (List Nat)) :
    board_sum (move_left board).board = board_sum board := by
  rw [move_left_board_eq]
  unfold board_sum
  rw [List.enum_eq_enumFrom]
  exact enumFrom_row_sums 0 board

theorem map_reverse_sum (board : List (List Nat)) :
    board_sum (board.map List.reverse) = board_sum board := by
  unfold board_sum
  rw [List.map_map]
  congr 1
  exact List.map_congr_left (fun row _ => List.sum_reverse row)

theorem transpose_sum {board : List (List Nat)} (h : Wf board) :
    board_sum (transpose board) = board_sum board := by
  obtain ⟨a00, a01, a02, a03, a10, a11, a12, a13, a20, a21, a22, a23,
    a30, a31, a32, a33, hb⟩ := wf_board_eq h
  subst hb
  have ht : transpose [[a00, a01, a02, a03], [a10, a11, a12, a13],
      [a20, a21, a22, a23], [a30, a31, a32, a33]] =
      [[a00, a10, a20, a30], [a01, a11, a21, a31],
       [a02, a12, a22, a32], [a03, a13, a23, a33]] := rfl
  rw [ht]
  unfold board_sum
  simp only [List.map_cons, List.map_nil, List.sum_cons, List.sum_nil]
  omega

theorem direction_result_sum (board : List (List Nat)) (direction : String)
    (hwf : Wf board) :
    board_sum (direction_result board direction).board = board_sum board := by
  unfold direction_result
  split_ifs
  · exact move_left_sum board
  · show board_sum ((move_left (board.map List.reverse)).board.map List.reverse) = _
    rw [map_reverse_sum, move_left_sum, map_reverse_sum]
  · show board_sum (transpose (move_left (transpose board)).board) = _
    rw [transpose_sum (move_left_wf _ (wf_transpose hwf)), move_left_sum,
      transpose_sum hwf]
  · show board_sum (transpose
      ((move_left ((transpose board).map List.reverse)).board.map List.reverse)) = _
    rw [transpose_sum (wf_map_reverse
        (move_left_wf _ (wf_map_reverse (wf_transpose hwf)))),
      map_reverse_sum, move_left_sum, map_reverse_sum, transpose_sum hwf]

theorem sum_set_add :
    ∀ (l : List Nat) (i a : Nat), i < l.length →
      (l.set i a).sum + l.getD i 0 = l.sum + a
  | [], i, a, h => by simp at h
  | x :: rest, 0, a, _ => by
    simp [List.sum_cons]
    omega
  | x :: rest, i + 1, a, h => by
    have ih := sum_set_add rest i a (by simpa using h)
    simp only [List.set_cons_succ, List.sum_cons, List.getD_cons_succ]
    omega

theorem set_cell_sum {board : List (List Nat)} {r c : Nat} (v : Nat)
    (hr : r < board.length) (hc : c < (board.getD r []).length)
    (hzero : cell board r c = 0) :
    board_sum (set_cell board r c v) = board_sum board + v := by
  unfold board_sum set_cell
  rw [List.map_set]
  have hr' : r < (board.map List.sum).length := by
    rw [List.length_map]
    exact hr
  have houter := sum_set_add (board.map List.sum) r
    ((board.getD r []).set c v).sum hr'
  have hgetD : (board.map List.sum).getD r 0 = (board.getD r []).sum := by
    rw [List.getD_eq_getElem?_getD, List.getElem?_eq_getElem hr', Option.getD_some,
      List.getElem_map, List.getD_eq_getElem?_getD board,
      List.getElem?_eq_getElem hr, Option.getD_some]
  have hinner := sum_set_add (board.getD r []) c v hc
  have hzero' : (board.getD r []).getD c 0 = 0 := hzero
  rw [hzero'] at hinner
  rw [hgetD] at houter
  omega

theorem spawn_tile_sum (rand : SpawnRand) (st : GameState) (hwf : Wf st.board) :
    board_sum (spawn_tile rand st).2.board =
      board_sum st.board + (match (spawn_tile rand st).1 with
        | some s => s.2.2
        | none => 0) := by
  by_cases h : (empty_cells st.board).isEmpty
  · simp [spawn_tile, h]
  · have hie : (empty_cells st.board).isEmpty = false := by
      cases he : empty_cells st.board with
      | nil => rw [he] at h; exact absurd rfl h
      | cons a l => rfl
    have hne : empty_cells st.board ≠ [] := by
      intro hnil
      rw [hnil] at hie
      exact absurd hie (by simp)
    have hlen : 0 < (empty_cells st.board).length := List.length_pos.mpr hne
    set p := (empty_cells st.board).getD (rand.pick % (empty_cells st.board).length)
      (0, 0) with hpdef
    have hpmem : p ∈ empty_cells st.board := getD_mem_of_lt _ (Nat.mod_lt _ hlen)
    obtain ⟨h1, h2, h0⟩ := empty_cells_spec hpmem
    have hr' : p.1 < st.board.length := by rw [hwf.1]; exact h1
    have hc' : p.2 < (st.board.getD p.1 []).length := by
      rw [hwf.2 _ (getD_mem_of_lt [] hr')]
      exact h2
    have hsp : spawn_tile rand st =
        (some (p.1, p.2, if rand.four then 4 else 2),
          { st with board := set_cell st.board p.1 p.2 (if rand.four then 4 else 2)
                    last_spawn := some (p.1, p.2, if rand.four then 4 else 2) }) := by
      simp [spawn_tile, hie, hpdef]
    rw [hsp]
    exact set_cell_sum _ hr' hc' h0

theorem move_accept_fst (rand : SpawnRand) (st : GameState) (result : MoveResult) :
    (move_accept rand st result).1 =
      some { result with spawn :=
        (spawn_tile rand { st with
          board := result.board
          score := st.score + (result.score_gain : Int)
          best_score := (apply_score_gain st.best_score st.total_score
            (st.score + (result.score_gain : Int)) (result.score_gain : Int)).1
          total_score := (apply_score_gain st.best_score st.total_score
            (st.score + (result.score_gain : Int)) (result.score_gain : Int)).2.1
          won := st.won ||
            result.board.any (fun row => row.any (fun v => decide (2048 ≤ v))) }).1 } := by
  unfold move_accept
  by_cases h : result.board.any (fun row => row.any (fun v => decide (2048 ≤ v)))
  · simp only [h, if_true]
    congr 2
    cases hw : st.won <;> simp
  · simp only [h, if_false]
    congr 2
    cases hw : st.won <;> simp [h]

theorem move_step_sum (rand : SpawnRand) (st : GameState) (direction : String)
    (hwf : Wf st.board) :
    Wf ((move rand st direction).2).board ∧
    board_sum ((move rand st direction).2).board =
      board_sum st.board + (match (move rand st direction).1 with
        | some res => match res.spawn with
          | some s => s.2.2
          | none => 0
        | none => 0) := by
  unfold move
  by_cases hm : direction ∈ (["LEFT", "RIGHT", "UP", "DOWN"] : List String)
  case neg =>
    rw [if_neg hm]
    exact ⟨hwf, by simp⟩
  rw [if_pos hm]
  by_cases hmvd : (direction_result st.board direction).moved
  case neg =>
    simp only [hmvd, Bool.false_eq_true, if_false]
    exact ⟨hwf, by simp⟩
  simp only [hmvd, if_true]
  have hwfres : Wf (direction_result st.board direction).board :=
    direction_result_wf _ _ hwf
  constructor
  · rw [move_accept_board]
    exact spawn_tile_wf _ _ hwfres
  · rw [move_accept_board, move_accept_fst]
    rw [spawn_tile_sum _ _ hwfres, direction_result_sum _ _ hwf]

/-- C4 as stated is false: one accepted LEFT move from a board holding
two 2-tiles merges them (sum unchanged, gain 4) and spawns a 2, so the
final sum is 6 while "sum before + gains + spawned" is 4 + 4 + 2 = 10.
Merging writes `value * 2` while consuming two `value` tiles, so score
gains never enter the cell-sum balance. -/
theorem conservation_claim_counterexample :
    ¬ (board_sum (run_moves
        ⟨0, 0, 0, [[2, 2, 0, 0], [0, 0, 0, 0], [0, 0, 0, 0], [0, 0, 0, 0]],
          false, false, none⟩ [("LEFT", ⟨0, false⟩)]).1.board =
      board_sum [[2, 2, 0, 0], [0, 0, 0, 0], [0, 0, 0, 0], [0, 0, 0, 0]] +
      (run_moves
        ⟨0, 0, 0, [[2, 2, 0, 0], [0, 0, 0, 0], [0, 0, 0, 0], [0, 0, 0, 0]],
          false, false, none⟩ [("LEFT", ⟨0, false⟩)]).2.1 +
      (run_moves
        ⟨0, 0, 0, [[2, 2, 0, 0], [0, 0, 0, 0], [0, 0, 0, 0], [0, 0, 0, 0]],
          false, false, none⟩ [("LEFT", ⟨0, false⟩)]).2.2) := by
  decide

/-- C4 amended: over any command sequence the grid sum after equals
the grid sum before plus the values of all spawned tiles; the score
gains drop out of the balance because every merge conserves the sum. -/
theorem conservation_amended (st : GameState) (cmds : List (String × SpawnRand))
    (hwf : Wf st.board) :
    board_sum (run_moves st cmds).1.board =
      board_sum st.board + (run_moves st cmds).2.2 := by
  induction cmds generalizing st with
  | nil => simp [run_moves]
  | cons hd tl ih =>
    obtain ⟨d, rn⟩ := hd
    obtain ⟨hwf', hsum⟩ := move_step_sum rn st d hwf
    have hih := ih (move rn st d).2 hwf'
    simp only [run_moves]
    rw [hih, hsum]
    omega

/-- Witness for the amended C4 at a concrete run. -/
theorem conservation_amended_witness :
    board_sum (run_moves
      ⟨0, 0, 0, [[2, 2, 0, 0], [0, 0, 0, 0], [0, 0, 0, 0], [0, 0, 0, 0]],
        false, false, none⟩ [("LEFT", ⟨0, false⟩)]).1.board =
      board_sum [[2, 2, 0, 0], [0, 0, 0, 0], [0, 0, 0, 0], [0, 0, 0, 0]] +
      (run_moves
        ⟨0, 0, 0, [[2, 2, 0, 0], [0, 0, 0, 0], [0, 0, 0, 0], [0, 0, 0, 0]],
          false, false, none⟩ [("LEFT", ⟨0, false⟩)]).2.2 :=
  conservation_amended _ _ (by decide)

/-- The scan is equivariant under a coordinate transform of the entry
cells and of the destination map: transforming every entry cell by `φ`
and scanning with destinations `f`, then mapping `φ'` over the
recorded moves, is the same as scanning the original entries with
destinations `g`, provided `φ'` undoes `φ` on the entry cells and
carries `f`-destinations to `g`-destinations. -/
theorem slide_scan_rel (φ' φ : Nat × Nat → Nat × Nat) (f g : Nat → Nat × Nat)
    (hend : ∀ u, φ' (f u) = g u) :
    ∀ (l : List (Nat × Nat × Nat)) (t : Nat), (∀ e ∈ l, φ' (φ e.2) = e.2) →
      (slide_scan f (l.map (fun e => (e.1, φ e.2))) t).1 = (slide_scan g l t).1 ∧
      (slide_scan f (l.map (fun e => (e.1, φ e.2))) t).2.1 =
        (slide_scan g l t).2.1 ∧
      (slide_scan f (l.map (fun e => (e.1, φ e.2))) t).2.2.map (map_move φ') =
        (slide_scan g l t).2.2
  | [], t, _ => ⟨rfl, rfl, rfl⟩
  | [(v, sr, sc)], t, hl => by
    simp only [List.map_cons, List.map_nil]
    rcases hφ : φ (sr, sc) with ⟨p1, p2⟩
    have hback : φ' (p1, p2) = (sr, sc) := by
      rw [← hφ]
      exact hl (v, sr, sc) (by simp)
    simp only [slide_scan, List.map_cons, List.map_nil, map_move, hback, hend]
    exact ⟨trivial, trivial, trivial⟩
  | (v, sr, sc) :: (v2, sr2, sc2) :: rest, t, hl => by
    simp only [List.map_cons]
    rcases hφ1 : φ (sr, sc) with ⟨p1, p2⟩
    rcases hφ2 : φ (sr2, sc2) with ⟨q1, q2⟩
    have hback1 : φ' (p1, p2) = (sr, sc) := by
      rw [← hφ1]
      exact hl (v, sr, sc) (by simp)
    have hback2 : φ' (q1, q2) = (sr2, sc2) := by
      rw [← hφ2]
      exact hl (v2, sr2, sc2) (by simp)
    by_cases h : v2 = v
    · have ih := slide_scan_rel φ' φ f g hend rest (t + 1)
        (fun e he => hl e (by simp [he]))
      simp only [slide_scan, if_pos h, List.map_cons, map_move, hback1, hback2, hend]
      exact ⟨by rw [ih.1], by rw [ih.2.1], by rw [ih.2.2]⟩
    · have ih := slide_scan_rel φ' φ f g hend ((v2, sr2, sc2) :: rest) (t + 1)
        (fun e he => hl e (by simp at he ⊢; tauto))
      simp only [List.map_cons] at ih
      rw [hφ2] at ih
      simp only [slide_scan, if_neg h, List.map_cons, map_move, hback1, hend]
      exact ⟨by rw [ih.1], by rw [ih.2.1], by rw [ih.2.2]⟩

theorem nonZeroEntries_bounds (r : Nat) (row : List Nat) :
    ∀ e ∈ nonZeroEntries r row, e.2.1 = r ∧ e.2.2 < row.length := by
  intro e he
  unfold nonZeroEntries at he
  rw [List.mem_map] at he
  obtain ⟨p, hp, he⟩ := he
  subst he
  exact ⟨rfl, List.fst_lt_of_mem_enum (List.mem_filter.mp hp).1⟩

theorem spec_col_entries_bounds (c : Nat) (col : List Nat) :
    ∀ e ∈ spec_col_entries c col, e.2.1 < col.length ∧ e.2.2 = c := by
  intro e he
  unfold spec_col_entries at he
  rw [List.mem_map] at he
  obtain ⟨p, hp, he⟩ := he
  subst he
  constructor
  · show p.1 < col.length
    exact List.fst_lt_of_mem_enum (List.mem_filter.mp hp).1
  · rfl

theorem slide_scan_rel_app (φ' φ : Nat × Nat → Nat × Nat) (f g : Nat → Nat × Nat)
    (hend : ∀ u, φ' (f u) = g u) {l l' : List (Nat × Nat × Nat)}
    (hmap : l' = l.map (fun e => (e.1, φ e.2))) (t : Nat)
    (hl : ∀ e ∈ l, φ' (φ e.2) = e.2) :
    (slide_scan f l' t).1 = (slide_scan g l t).1 ∧
    (slide_scan f l' t).2.1 = (slide_scan g l t).2.1 ∧
    (slide_scan f l' t).2.2.map (map_move φ') = (slide_scan g l t).2.2 := by
  subst hmap
  exact slide_scan_rel φ' φ f g hend l t hl

theorem entries_reverse4 (r x0 x1 x2 x3 : Nat) :
    nonZeroEntries r [x3, x2, x1, x0] =
      ((nonZeroEntries r [x0, x1, x2, x3]).reverse).map
        (fun e => (e.1, e.2.1, GRID_SIZE - 1 - e.2.2)) := by
  unfold nonZeroEntries
  have e1 : ([x3, x2, x1, x0] : List Nat).enum =
      [(0, x3), (1, x2), (2, x1), (3, x0)] := rfl
  have e2 : ([x0, x1, x2, x3] : List Nat).enum =
      [(0, x0), (1, x1), (2, x2), (3, x3)] := rfl
  rw [e1, e2]
  by_cases h0 : x0 = 0 <;> by_cases h1 : x1 = 0 <;> by_cases h2 : x2 = 0 <;>
    by_cases h3 : x3 = 0 <;>
    simp [List.filter_cons, h0, h1, h2, h3, GRID_SIZE]

theorem nonZero_col_eq_spec (c : Nat) (col : List Nat) :
    nonZeroEntries c col =
      (spec_col_entries c col).map (fun e => (e.1, e.2.2, e.2.1)) := by
  unfold nonZeroEntries spec_col_entries
  rw [List.map_map]
  rfl

theorem bne_reverse (u w : List Nat) : (u != w) = (u.reverse != w.reverse) := by
  by_cases h : u = w
  · simp [h]
  · have hr : u.reverse ≠ w.reverse := fun he =>
      h (by rw [← List.reverse_reverse u, he, List.reverse_reverse])
    rw [Bool.eq_iff_iff]
    simp [bne_iff_ne, h, hr]

theorem right_row_rel (r x0 x1 x2 x3 : Nat) :
    (move_left_row r [x3, x2, x1, x0]).newRow.reverse =
      (spec_slide_right_row r [x0, x1, x2, x3]).newRow ∧
    (move_left_row r [x3, x2, x1, x0]).gain =
      (spec_slide_right_row r [x0, x1, x2, x3]).gain ∧
    (move_left_row r [x3, x2, x1, x0]).moves.map mirror_horizontal =
      (spec_slide_right_row r [x0, x1, x2, x3]).moves := by
  have hl : ∀ e ∈ (nonZeroEntries r [x0, x1, x2, x3]).reverse,
      (fun p : Nat × Nat => (p.1, GRID_SIZE - 1 - p.2))
        ((fun p : Nat × Nat => (p.1, GRID_SIZE - 1 - p.2)) e.2) = e.2 := by
    intro e he
    have hbd := (nonZeroEntries_bounds r [x0, x1, x2, x3] e
      (List.mem_reverse.mp he)).2
    show (e.2.1, GRID_SIZE - 1 - (GRID_SIZE - 1 - e.2.2)) = e.2
    have harith : GRID_SIZE - 1 - (GRID_SIZE - 1 - e.2.2) = e.2.2 := by
      simp only [List.length_cons, List.length_nil] at hbd
      simp only [GRID_SIZE]
      omega
    rw [harith]
  obtain ⟨hns, hgain, hmoves⟩ := slide_scan_rel_app
    (fun p : Nat × Nat => (p.1, GRID_SIZE - 1 - p.2))
    (fun p : Nat × Nat => (p.1, GRID_SIZE - 1 - p.2))
    (fun u => (r, u)) (fun u => (r, GRID_SIZE - 1 - u)) (fun u => rfl)
    (entries_reverse4 r x0 x1 x2 x3) 0 hl
  refine ⟨?_, ?_, ?_⟩
  · simp only [move_left_row, spec_slide_right_row]
    rw [List.reverse_append, List.reverse_replicate, hns]
  · simp only [move_left_row, spec_slide_right_row]
    exact hgain
  · simp only [move_left_row, spec_slide_right_row]
    exact hmoves

theorem up_col_rel (c : Nat) (col : List Nat) :
    (move_left_row c col).newRow = (spec_slide_up_col c col).newRow ∧
    (move_left_row c col).gain = (spec_slide_up_col c col).gain ∧
    (move_left_row c col).moves.map transpose_move =
      (spec_slide_up_col c col).moves := by
  obtain ⟨hns, hgain, hmoves⟩ := slide_scan_rel_app
    (fun p : Nat × Nat => (p.2, p.1)) (fun p : Nat × Nat => (p.2, p.1))
    (fun u => (c, u)) (fun u => (u, c)) (fun u => rfl)
    (nonZero_col_eq_spec c col) 0 (fun e _ => rfl)
  refine ⟨?_, ?_, ?_⟩
  · simp only [move_left_row, spec_slide_up_col]
    rw [hns]
  · simp only [move_left_row, spec_slide_up_col]
    exact hgain
  · simp only [move_left_row, spec_slide_up_col]
    exact hmoves

theorem down_col_rel (c y0 y1 y2 y3 : Nat) :
    (move_left_row c [y3, y2, y1, y0]).newRow.reverse =
      (spec_slide_down_col c [y0, y1, y2, y3]).newRow ∧
    (move_left_row c [y3, y2, y1, y0]).gain =
      (spec_slide_down_col c [y0, y1, y2, y3]).gain ∧
    ((move_left_row c [y3, y2, y1, y0]).moves.map mirror_horizontal).map
        transpose_move =
      (spec_slide_down_col c [y0, y1, y2, y3]).moves := by
  have hmap : nonZeroEntries c [y3, y2, y1, y0] =
      ((spec_col_entries c [y0, y1, y2, y3]).reverse).map
        (fun e => (e.1, (fun p : Nat × Nat => (p.2, GRID_SIZE - 1 - p.1)) e.2)) := by
    rw [entries_reverse4, nonZero_col_eq_spec, ← List.map_reverse, List.map_map]
    rfl
  have hl : ∀ e ∈ (spec_col_entries c [y0, y1, y2, y3]).reverse,
      (fun p : Nat × Nat => (GRID_SIZE - 1 - p.2, p.1))
        ((fun p : Nat × Nat => (p.2, GRID_SIZE - 1 - p.1)) e.2) = e.2 := by
    intro e he
    have hbd := (spec_col_entries_bounds c [y0, y1, y2, y3] e
      (List.mem_reverse.mp he)).1
    show (GRID_SIZE - 1 - (GRID_SIZE - 1 - e.2.1), e.2.2) = e.2
    have harith : GRID_SIZE - 1 - (GRID_SIZE - 1 - e.2.1) = e.2.1 := by
      simp only [List.length_cons, List.length_nil] at hbd
      simp only [GRID_SIZE]
      omega
    rw [harith]
  obtain ⟨hns, hgain, hmoves⟩ := slide_scan_rel_app
    (fun p : Nat × Nat => (GRID_SIZE - 1 - p.2, p.1))
    (fun p : Nat × Nat => (p.2, GRID_SIZE - 1 - p.1))
    (fun u => (c, u)) (fun u => (GRID_SIZE - 1 - u, c)) (fun u => rfl)
    hmap 0 hl
  refine ⟨?_, ?_, ?_⟩
  · simp only [move_left_row, spec_slide_down_col]
    rw [List.reverse_append, List.reverse_replicate, hns]
  · simp only [move_left_row, spec_slide_down_col]
    exact hgain
  · simp only [move_left_row, spec_slide_down_col]
    rw [List.map_map]
    exact hmoves

theorem move_left_gain_eq (board : List (List Nat)) :
    (move_left board).score_gain =
      (board.enum.map (fun p => (move_left_row p.1 p.2).gain)).sum := by
  simp [move_left, List.map_map]
  rfl

theorem move_left_moves_eq (board : List (List Nat)) :
    (move_left board).moves =
      (board.enum.map (fun p => (move_left_row p.1 p.2).moves)).flatten := by
  simp [move_left, List.map_map]
  rfl

theorem move_left_moved_eq (board : List (List Nat)) :
    (move_left board).moved =
      ((board.enum.map (fun p => (move_left_row p.1 p.2).newRow)).zip board).any
        (fun q => q.1 != q.2) := by
  simp [move_left, List.map_map]
  rfl

theorem right_eq {board : List (List Nat)} (hwf : Wf board) :
    direction_result board "RIGHT" = spec_slide_right board := by
  obtain ⟨x00, x01, x02, x03, x10, x11, x12, x13, x20, x21, x22, x23,
    x30, x31, x32, x33, hb⟩ := wf_board_eq hwf
  subst hb
  have r0 := right_row_rel 0 x00 x01 x02 x03
  have r1 := right_row_rel 1 x10 x11 x12 x13
  have r2 := right_row_rel 2 x20 x21 x22 x23
  have r3 := right_row_rel 3 x30 x31 x32 x33
  have henumL : ([[x00, x01, x02, x03], [x10, x11, x12, x13],
      [x20, x21, x22, x23], [x30, x31, x32, x33]].map List.reverse).enum =
      [(0, [x03, x02, x01, x00]), (1, [x13, x12, x11, x10]),
       (2, [x23, x22, x21, x20]), (3, [x33, x32, x31, x30])] := rfl
  have henumR : ([[x00, x01, x02, x03], [x10, x11, x12, x13],
      [x20, x21, x22, x23], [x30, x31, x32, x33]] : List (List Nat)).enum =
      [(0, [x00, x01, x02, x03]), (1, [x10, x11, x12, x13]),
       (2, [x20, x21, x22, x23]), (3, [x30, x31, x32, x33])] := rfl
  rw [direction_result_right]
  simp only [spec_slide_right]
  congr 1
  · rw [move_left_board_eq, henumL, henumR]
    simp only [List.map_cons, List.map_nil]
    rw [r0.1, r1.1, r2.1, r3.1]
  · rw [move_left_gain_eq, henumL, henumR]
    simp only [List.map_cons, List.map_nil]
    rw [r0.2.1, r1.2.1, r2.2.1, r3.2.1]
  · rw [move_left_moved_eq, henumL, henumR]
    simp only [List.map_cons, List.map_nil, List.zip_cons_cons, List.zip_nil_right,
      List.any_cons, List.any_nil]
    rw [bne_reverse (move_left_row 0 [x03, x02, x01, x00]).newRow,
      bne_reverse (move_left_row 1 [x13, x12, x11, x10]).newRow,
      bne_reverse (move_left_row 2 [x23, x22, x21, x20]).newRow,
      bne_reverse (move_left_row 3 [x33, x32, x31, x30]).newRow]
    simp only [List.reverse_reverse]
    rw [r0.1, r1.1, r2.1, r3.1]
  · rw [move_left_moves_eq, henumL, henumR, List.map_flatten]
    simp only [List.map_cons, List.map_nil]
    rw [r0.2.2, r1.2.2, r2.2.2, r3.2.2]

theorem transpose_four (l0 l1 l2 l3 : List Nat)
    (h0 : l0.length = 4) (h1 : l1.length = 4) (h2 : l2.length = 4)
    (h3 : l3.length = 4) :
    transpose [l0, l1, l2, l3] =
      [[l0.getD 0 0, l1.getD 0 0, l2.getD 0 0, l3.getD 0 0],
       [l0.getD 1 0, l1.getD 1 0, l2.getD 1 0, l3.getD 1 0],
       [l0.getD 2 0, l1.getD 2 0, l2.getD 2 0, l3.getD 2 0],
       [l0.getD 3 0, l1.getD 3 0, l2.getD 3 0, l3.getD 3 0]] := by
  unfold transpose min_row_len
  simp only [List.map_cons, List.map_nil, h0, h1, h2, h3]
  rfl

theorem up_eq {board : List (List Nat)} (hwf : Wf board) :
    direction_result board "UP" = spec_slide_up board := by
  obtain ⟨x00, x01, x02, x03, x10, x11, x12, x13, x20, x21, x22, x23,
    x30, x31, x32, x33, hb⟩ := wf_board_eq hwf
  subst hb
  have u0 := up_col_rel 0 [x00, x10, x20, x30]
  have u1 := up_col_rel 1 [x01, x11, x21, x31]
  have u2 := up_col_rel 2 [x02, x12, x22, x32]
  have u3 := up_col_rel 3 [x03, x13, x23, x33]
  have htr : transpose [[x00, x01, x02, x03], [x10, x11, x12, x13],
      [x20, x21, x22, x23], [x30, x31, x32, x33]] =
      [[x00, x10, x20, x30], [x01, x11, x21, x31],
       [x02, x12, x22, x32], [x03, x13, x23, x33]] := rfl
  have henum : ([[x00, x10, x20, x30], [x01, x11, x21, x31],
      [x02, x12, x22, x32], [x03, x13, x23, x33]] : List (List Nat)).enum =
      [(0, [x00, x10, x20, x30]), (1, [x01, x11, x21, x31]),
       (2, [x02, x12, x22, x32]), (3, [x03, x13, x23, x33])] := rfl
  have hcols : (List.range GRID_SIZE).map (fun c =>
      spec_slide_up_col c (column [[x00, x01, x02, x03], [x10, x11, x12, x13],
        [x20, x21, x22, x23], [x30, x31, x32, x33]] c)) =
      [spec_slide_up_col 0 [x00, x10, x20, x30],
       spec_slide_up_col 1 [x01, x11, x21, x31],
       spec_slide_up_col 2 [x02, x12, x22, x32],
       spec_slide_up_col 3 [x03, x13, x23, x33]] := rfl
  have hl0 : (spec_slide_up_col 0 [x00, x10, x20, x30]).newRow.length = 4 := by
    rw [← u0.1]
    exact move_left_row_length _ _ rfl
  have hl1 : (spec_slide_up_col 1 [x01, x11, x21, x31]).newRow.length = 4 := by
    rw [← u1.1]
    exact move_left_row_length _ _ rfl
  have hl2 : (spec_slide_up_col 2 [x02, x12, x22, x32]).newRow.length = 4 := by
    rw [← u2.1]
    exact move_left_row_length _ _ rfl
  have hl3 : (spec_slide_up_col 3 [x03, x13, x23, x33]).newRow.length = 4 := by
    rw [← u3.1]
    exact move_left_row_length _ _ rfl
  have hasm : (List.range GRID_SIZE).map (fun r => (List.range GRID_SIZE).map
      (fun c => (([spec_slide_up_col 0 [x00, x10, x20, x30],
        spec_slide_up_col 1 [x01, x11, x21, x31],
        spec_slide_up_col 2 [x02, x12, x22, x32],
        spec_slide_up_col 3 [x03, x13, x23, x33]].getD c
          ⟨[], 0, []⟩).newRow.getD r 0))) =
      [[(spec_slide_up_col 0 [x00, x10, x20, x30]).newRow.getD 0 0,
        (spec_slide_up_col 1 [x01, x11, x21, x31]).newRow.getD 0 0,
        (spec_slide_up_col 2 [x02, x12, x22, x32]).newRow.getD 0 0,
        (spec_slide_up_col 3 [x03, x13, x23, x33]).newRow.getD 0 0],
       [(spec_slide_up_col 0 [x00, x10, x20, x30]).newRow.getD 1 0,
        (spec_slide_up_col 1 [x01, x11, x21, x31]).newRow.getD 1 0,
        (spec_slide_up_col 2 [x02, x12, x22, x32]).newRow.getD 1 0,
        (spec_slide_up_col 3 [x03, x13, x23, x33]).newRow.getD 1 0],
       [(spec_slide_up_col 0 [x00, x10, x20, x30]).newRow.getD 2 0,
        (spec_slide_up_col 1 [x01, x11, x21, x31]).newRow.getD 2 0,
        (spec_slide_up_col 2 [x02, x12, x22, x32]).newRow.getD 2 0,
        (spec_slide_up_col 3 [x03, x13, x23, x33]).newRow.getD 2 0],
       [(spec_slide_up_col 0 [x00, x10, x20, x30]).newRow.getD 3 0,
        (spec_slide_up_col 1 [x01, x11, x21, x31]).newRow.getD 3 0,
        (spec_slide_up_col 2 [x02, x12, x22, x32]).newRow.getD 3 0,
        (spec_slide_up_col 3 [x03, x13, x23, x33]).newRow.getD 3 0]] := rfl
  rw [direction_result_up]
  simp only [spec_slide_up]
  rw [hcols]
  simp only [MoveResult.mk.injEq]
  refine ⟨?_, ?_, ?_, ?_, rfl⟩
  · rw [htr, move_left_board_eq, henum]
    simp only [List.map_cons, List.map_nil]
    rw [u0.1, u1.1, u2.1, u3.1, transpose_four _ _ _ _ hl0 hl1 hl2 hl3, hasm]
  · rw [htr, move_left_gain_eq, henum]
    simp only [List.map_cons, List.map_nil]
    rw [u0.2.1, u1.2.1, u2.2.1, u3.2.1]
  · rw [htr, move_left_moved_eq, henum]
    simp only [List.map_cons, List.map_nil, List.zip_cons_cons, List.zip_nil_right,
      List.any_cons, List.any_nil]
    rw [u0.1, u1.1, u2.1, u3.1]
    have hc : (List.range GRID_SIZE).map (fun c =>
        column [[x00, x01, x02, x03], [x10, x11, x12, x13],
          [x20, x21, x22, x23], [x30, x31, x32, x33]] c) =
        [[x00, x10, x20, x30], [x01, x11, x21, x31],
         [x02, x12, x22, x32], [x03, x13, x23, x33]] := rfl
    rw [hc]
    simp only [List.map_cons, List.map_nil, List.zip_cons_cons, List.zip_nil_right,
      List.any_cons, List.any_nil]
  · rw [htr, move_left_moves_eq, henum, List.map_flatten]
    simp only [List.map_cons, List.map_nil]
    rw [u0.2.2, u1.2.2, u2.2.2, u3.2.2]

theorem down_eq {board : List (List Nat)} (hwf : Wf board) :
    direction_result board "DOWN" = spec_slide_down board := by
  obtain ⟨x00, x01, x02, x03, x10, x11, x12, x13, x20, x21, x22, x23,
    x30, x31, x32, x33, hb⟩ := wf_board_eq hwf
  subst hb
  have d0 := down_col_rel 0 x00 x10 x20 x30
  have d1 := down_col_rel 1 x01 x11 x21 x31
  have d2 := down_col_rel 2 x02 x12 x22 x32
  have d3 := down_col_rel 3 x03 x13 x23 x33
  have htr : transpose [[x00, x01, x02, x03], [x10, x11, x12, x13],
      [x20, x21, x22, x23], [x30, x31, x32, x33]] =
      [[x00, x10, x20, x30], [x01, x11, x21, x31],
       [x02, x12, x22, x32], [x03, x13, x23, x33]] := rfl
  have henum : (([[x00, x10, x20, x30], [x01, x11, x21, x31],
      [x02, x12, x22, x32], [x03, x13, x23, x33]] : List (List Nat)).map
        List.reverse).enum =
      [(0, [x30, x20, x10, x00]), (1, [x31, x21, x11, x01]),
       (2, [x32, x22, x12, x02]), (3, [x33, x23, x13, x03])] := rfl
  have hcols : (List.range GRID_SIZE).map (fun c =>
      spec_slide_down_col c (column [[x00, x01, x02, x03], [x10, x11, x12, x13],
        [x20, x21, x22, x23], [x30, x31, x32, x33]] c)) =
      [spec_slide_down_col 0 [x00, x10, x20, x30],
       spec_slide_down_col 1 [x01, x11, x21, x31],
       spec_slide_down_col 2 [x02, x12, x22, x32],
       spec_slide_down_col 3 [x03, x13, x23, x33]] := rfl
  have hl0 : (spec_slide_down_col 0 [x00, x10, x20, x30]).newRow.length = 4 := by
    rw [← d0.1, List.length_reverse]
    exact move_left_row_length _ _ rfl
  have hl1 : (spec_slide_down_col 1 [x01, x11, x21, x31]).newRow.length = 4 := by
    rw [← d1.1, List.length_reverse]
    exact move_left_row_length _ _ rfl
  have hl2 : (spec_slide_down_col 2 [x02, x12, x22, x32]).newRow.length = 4 := by
    rw [← d2.1, List.length_reverse]
    exact move_left_row_length _ _ rfl
  have hl3 : (spec_slide_down_col 3 [x03, x13, x23, x33]).newRow.length = 4 := by
    rw [← d3.1, List.length_reverse]
    exact move_left_row_length _ _ rfl
  have hasm : (List.range GRID_SIZE).map (fun r => (List.range GRID_SIZE).map
      (fun c => (([spec_slide_down_col 0 [x00, x10, x20, x30],
        spec_slide_down_col 1 [x01, x11, x21, x31],
        spec_slide_down_col 2 [x02, x12, x22, x32],
        spec_slide_down_col 3 [x03, x13, x23, x33]].getD c
          ⟨[], 0, []⟩).newRow.getD r 0))) =
      [[(spec_slide_down_col 0 [x00, x10, x20, x30]).newRow.getD 0 0,
        (spec_slide_down_col 1 [x01, x11, x21, x31]).newRow.getD 0 0,
        (spec_slide_down_col 2 [x02, x12, x22, x32]).newRow.getD 0 0,
        (spec_slide_down_col 3 [x03, x13, x23, x33]).newRow.getD 0 0],
       [(spec_slide_down_col 0 [x00, x10, x20, x30]).newRow.getD 1 0,
        (spec_slide_down_col 1 [x01, x11, x21, x31]).newRow.getD 1 0,
        (spec_slide_down_col 2 [x02, x12, x22, x32]).newRow.getD 1 0,
        (spec_slide_down_col 3 [x03, x13, x23, x33]).newRow.getD 1 0],
       [(spec_slide_down_col 0 [x00, x10, x20, x30]).newRow.getD 2 0,
        (spec_slide_down_col 1 [x01, x11, x21, x31]).newRow.getD 2 0,
        (spec_slide_down_col 2 [x02, x12, x22, x32]).newRow.getD 2 0,
        (spec_slide_down_col 3 [x03, x13, x23, x33]).newRow.getD 2 0],
       [(spec_slide_down_col 0 [x00, x10, x20, x30]).newRow.getD 3 0,
        (spec_slide_down_col 1 [x01, x11, x21, x31]).newRow.getD 3 0,
        (spec_slide_down_col 2 [x02, x12, x22, x32]).newRow.getD 3 0,
        (spec_slide_down_col 3 [x03, x13, x23, x33]).newRow.getD 3 0]] := rfl
  rw [direction_result_down]
  simp only [spec_slide_down]
  rw [hcols]
  simp only [MoveResult.mk.injEq]
  refine ⟨?_, ?_, ?_, ?_, rfl⟩
  · rw [htr, move_left_board_eq, henum]
    simp only [List.map_cons, List.map_nil]
    rw [d0.1, d1.1, d2.1, d3.1, transpose_four _ _ _ _ hl0 hl1 hl2 hl3, hasm]
  · rw [htr, move_left_gain_eq, henum]
    simp only [List.map_cons, List.map_nil]
    rw [d0.2.1, d1.2.1, d2.2.1, d3.2.1]
  · rw [htr, move_left_moved_eq, henum]
    simp only [List.map_cons, List.map_nil, List.zip_cons_cons, List.zip_nil_right,
      List.any_cons, List.any_nil]
    rw [bne_reverse (move_left_row 0 [x30, x20, x10, x00]).newRow,
      bne_reverse (move_left_row 1 [x31, x21, x11, x01]).newRow,
      bne_reverse (move_left_row 2 [x32, x22, x12, x02]).newRow,
      bne_reverse (move_left_row 3 [x33, x23, x13, x03]).newRow]
    simp only [List.reverse_reverse]
    rw [d0.1, d1.1, d2.1, d3.1]
    have hc : (List.range GRID_SIZE).map (fun c =>
        column [[x00, x01, x02, x03], [x10, x11, x12, x13],
          [x20, x21, x22, x23], [x30, x31, x32, x33]] c) =
        [[x00, x10, x20, x30], [x01, x11, x21, x31],
         [x02, x12, x22, x32], [x03, x13, x23, x33]] := rfl
    rw [hc]
    simp only [List.map_cons, List.map_nil, List.zip_cons_cons, List.zip_nil_right,
      List.any_cons, List.any_nil]
  · rw [htr, move_left_moves_eq, henum, List.map_flatten, List.map_flatten,
      List.map_map]
    simp only [List.map_cons, List.map_nil, Function.comp_apply]
    rw [d0.2.2, d1.2.2, d2.2.2, d3.2.2]

/-- C3: the transform-composed directional moves equal independent
brute-force slides — the DOWN result is the transpose/reverse/slide-left
composition with both transforms applied to each movement, and the
RIGHT, UP and DOWN results (grid, score gain, moved flag and movement
coordinates) coincide with the directly simulated slide-right,
slide-up and slide-down outcomes. -/
theorem directional_moves_eq_brute_force (board : List (List Nat)) (hwf : Wf board) :
    (direction_result board "DOWN" =
      { move_left ((transpose board).map List.reverse) with
        board := transpose
          ((move_left ((transpose board).map List.reverse)).board.map List.reverse)
        moves := ((move_left ((transpose board).map List.reverse)).moves.map
          mirror_horizontal).map transpose_move }) ∧
    direction_result board "RIGHT" = spec_slide_right board ∧
    direction_result board "UP" = spec_slide_up board ∧
    direction_result board "DOWN" = spec_slide_down board :=
  ⟨direction_result_down board, right_eq hwf, up_eq hwf, down_eq hwf⟩

/-- Witness for C3 at a concrete grid exercising merges in every
direction. -/
theorem directional_moves_eq_brute_force_witness :
    (direction_result [[2, 2, 0, 4], [0, 4, 4, 8], [2, 0, 2, 2], [16, 16, 4, 4]]
        "DOWN" =
      { move_left ((transpose [[2, 2, 0, 4], [0, 4, 4, 8], [2, 0, 2, 2],
          [16, 16, 4, 4]]).map List.reverse) with
        board := transpose
          ((move_left ((transpose [[2, 2, 0, 4], [0, 4, 4, 8], [2, 0, 2, 2],
            [16, 16, 4, 4]]).map List.reverse)).board.map List.reverse)
        moves := ((move_left ((transpose [[2, 2, 0, 4], [0, 4, 4, 8], [2, 0, 2, 2],
            [16, 16, 4, 4]]).map List.reverse)).moves.map
          mirror_horizontal).map transpose_move }) ∧
    direction_result [[2, 2, 0, 4], [0, 4, 4, 8], [2, 0, 2, 2], [16, 16, 4, 4]]
        "RIGHT" =
      spec_slide_right [[2, 2, 0, 4], [0, 4, 4, 8], [2, 0, 2, 2], [16, 16, 4, 4]] ∧
    direction_result [[2, 2, 0, 4], [0, 4, 4, 8], [2, 0, 2, 2], [16, 16, 4, 4]]
        "UP" =
      spec_slide_up [[2, 2, 0, 4], [0, 4, 4, 8], [2, 0, 2, 2], [16, 16, 4, 4]] ∧
    direction_result [[2, 2, 0, 4], [0, 4, 4, 8], [2, 0, 2, 2], [16, 16, 4, 4]]
        "DOWN" =
      spec_slide_down [[2, 2, 0, 4], [0, 4, 4, 8], [2, 0, 2, 2], [16, 16, 4, 4]] :=
  directional_moves_eq_brute_force _ (by decide)
